import Mathlib

/-!
# BudgetBuddy recurrence-expansion and period-aggregation engine: a shallow embedding

This file embeds the core of the BudgetBuddy repository — the recurrence
expander `getRecurringDates` (three copies: one in the shared utils module,
two in `client/src/lib/queryClient.ts`) and the period aggregator
(the `useReportData` hook, duplicated inline in `ReportModal` of
`Reports.tsx`) — as executable Lean definitions, and proves the
specification's claims about them.

Modelling conventions:

* All `Date` values the expander manipulates are normalized by
  `ensureValidDate` to 12:00 UTC of a calendar day, so inside the expander a
  date is represented by its **day number** (`Int`, days since 1970-01-01).
  The civil (year, month, day) view needed by the MONTHLY / YEARLY branches
  is recovered with `fromDayNumber` / `toDayNumber` (Howard Hinnant's
  `civil_from_days` / `days_from_civil` algorithms, which compute the same
  mapping as the ECMAScript `Date` UTC getters and `date-fns`).
* The runtime's local timezone is taken to be UTC (the noon-UTC
  normalization in the source exists precisely to make local-time and
  UTC-time calendar days agree).
* In the aggregator, where the generation instant `new Date()` and the
  interval bounds carry a time of day, timestamps are modelled in integer
  milliseconds since the epoch; an expander output day `d` corresponds to
  the timestamp `noonTs d = d * 86400000 + 43200000`.
* Monetary amounts (decimal strings converted with `Number(...)` in the
  source) are modelled as exact rationals `ℚ`.
* `date-fns` v4 semantics (per `package.json`): `addMonths`/`addYears`
  clamp the day-of-month to the target month's length; `isWithinInterval`
  sorts its two bounds and tests inclusively; `startOfMonth`/`endOfMonth`
  give the first instant / last millisecond of the month; `isBefore` and
  `Date` comparisons compare millisecond timestamps.
-/

namespace BudgetBuddy

/-! ## Calendar arithmetic

Day numbers count days since 1970-01-01 (negative before).  `toDayNumber` /
`fromDayNumber` are the standard civil-calendar conversions used by every
JS date stack. -/

/-- Gregorian leap-year test. -/
def isLeap (y : Int) : Bool :=
  y % 4 == 0 && (y % 100 != 0 || y % 400 == 0)

/-- Number of days in month `m` (1–12) of year `y` (`date-fns getDaysInMonth`). -/
def daysInMonth (y m : Int) : Int :=
  if m = 2 then (if isLeap y then 29 else 28)
  else if m = 4 ∨ m = 6 ∨ m = 9 ∨ m = 11 then 30
  else 31

/-- A civil (proleptic Gregorian) calendar date. -/
structure CivDate where
  year  : Int
  month : Int
  day   : Int
deriving DecidableEq, Repr

/-- A civil date is valid when its month is 1–12 and its day fits the month. -/
def CivDate.Valid (d : CivDate) : Prop :=
  1 ≤ d.month ∧ d.month ≤ 12 ∧ 1 ≤ d.day ∧ d.day ≤ daysInMonth d.year d.month

instance (d : CivDate) : Decidable d.Valid := by
  unfold CivDate.Valid; infer_instance

/-- Year-of-era extraction from a day-of-era (Hinnant's formula). -/
def yoeOf (doe : Int) : Int :=
  (doe - doe / 1460 + doe / 36524 - doe / 146096) / 365

/-- Days since 1970-01-01 of a civil date (Hinnant's `days_from_civil`,
floor-division form). -/
def toDayNumber (dt : CivDate) : Int :=
  let y := if dt.month ≤ 2 then dt.year - 1 else dt.year
  let mp := if dt.month ≤ 2 then dt.month + 9 else dt.month - 3
  let doy := (153 * mp + 2) / 5 + (dt.day - 1)
  365 * y + y / 4 - y / 100 + y / 400 + doy - 719468

/-- Civil date of a day number (Hinnant's `civil_from_days`). -/
def fromDayNumber (z0 : Int) : CivDate :=
  let z := z0 + 719468
  let era := z / 146097
  let doe := z % 146097
  let yoe := yoeOf doe
  let y := yoe + era * 400
  let doy := doe - (365 * yoe + yoe / 4 - yoe / 100)
  let mp := (5 * doy + 2) / 153
  let d := doy - (153 * mp + 2) / 5 + 1
  let m := if mp < 10 then mp + 3 else mp - 9
  ⟨if m ≤ 2 then y + 1 else y, m, d⟩

set_option maxHeartbeats 4000000 in
theorem yoeOf_bounds (a : Int) (h1 : 0 ≤ a) (h2 : a ≤ 146096) :
    0 ≤ yoeOf a ∧ yoeOf a ≤ 399 ∧
    365 * yoeOf a + yoeOf a / 4 - yoeOf a / 100 ≤ a ∧
    a - (365 * yoeOf a + yoeOf a / 4 - yoeOf a / 100) ≤ 365 ∧
    a < 365 * (yoeOf a + 1) + (yoeOf a + 1) / 4 - (yoeOf a + 1) / 100
        + (yoeOf a + 1) / 400 := by
  unfold yoeOf
  set e := a / 1460 with he
  have hbe1 : 0 ≤ e := by omega
  have hbe2 : e ≤ 100 := by omega
  interval_cases e <;> first
    | omega
    | (set f := a / 36524 with hf
       have hbf1 : 0 ≤ f := by omega
       have hbf2 : f ≤ 4 := by omega
       interval_cases f <;> omega)

set_option maxHeartbeats 1000000 in
theorem toDayNumber_fromDayNumber (z : Int) :
    toDayNumber (fromDayNumber z) = z := by
  obtain ⟨h0, h1, h2, h3, h4⟩ :=
    yoeOf_bounds ((z + 719468) % 146097) (by omega) (by omega)
  unfold toDayNumber fromDayNumber
  simp only []
  have e4 : (yoeOf ((z + 719468) % 146097) + (z + 719468) / 146097 * 400) / 4
      = yoeOf ((z + 719468) % 146097) / 4 + (z + 719468) / 146097 * 100 := by
    omega
  have e100 : (yoeOf ((z + 719468) % 146097) + (z + 719468) / 146097 * 400) / 100
      = yoeOf ((z + 719468) % 146097) / 100 + (z + 719468) / 146097 * 4 := by
    omega
  have e400 : (yoeOf ((z + 719468) % 146097) + (z + 719468) / 146097 * 400) / 400
      = (z + 719468) / 146097 := by omega
  split <;> split <;>
    simp only [Int.add_sub_cancel, Int.sub_add_cancel] <;> omega

theorem leap_step (Y : Int) (h0 : 0 ≤ Y) (h1 : Y ≤ 399)
    (h : Y / 4 - Y / 100 < (Y + 1) / 4 - (Y + 1) / 100 + (Y + 1) / 400) :
    (Y + 1) % 4 = 0 ∧ ((Y + 1) % 100 ≠ 0 ∨ (Y + 1) % 400 = 0) := by
  rcases (show (Y + 1) / 4 = Y / 4 ∨ (Y + 1) / 4 = Y / 4 + 1 by omega) with h4 | h4 <;>
  rcases (show (Y + 1) / 100 = Y / 100 ∨ (Y + 1) / 100 = Y / 100 + 1 by omega) with hc | hc <;>
  rcases (show (Y + 1) / 400 = 0 ∨ ((Y + 1) / 400 = 1 ∧ Y = 399) by omega) with hq | hq <;>
  omega

set_option maxHeartbeats 800000 in
theorem doyParts (doy : Int) (h0 : 0 ≤ doy) (h1 : doy ≤ 365) :
    0 ≤ (5 * doy + 2) / 153 ∧ (5 * doy + 2) / 153 ≤ 11 ∧
    1 ≤ doy - (153 * ((5 * doy + 2) / 153) + 2) / 5 + 1 ∧
    doy - (153 * ((5 * doy + 2) / 153) + 2) / 5 + 1 ≤ 31 ∧
    ((5 * doy + 2) / 153 = 1 ∨ (5 * doy + 2) / 153 = 3 ∨
     (5 * doy + 2) / 153 = 6 ∨ (5 * doy + 2) / 153 = 8 →
      doy - (153 * ((5 * doy + 2) / 153) + 2) / 5 + 1 ≤ 30) ∧
    ((5 * doy + 2) / 153 = 11 →
      doy - (153 * ((5 * doy + 2) / 153) + 2) / 5 + 1 ≤ 29 ∧
      (doy - (153 * ((5 * doy + 2) / 153) + 2) / 5 + 1 = 29 → doy = 365)) := by
  interval_cases doy <;> omega

set_option maxHeartbeats 2000000 in
theorem fromDayNumber_valid (z : Int) : (fromDayNumber z).Valid := by
  obtain ⟨h0, h1, h2, h3, h4⟩ :=
    yoeOf_bounds ((z + 719468) % 146097) (by omega) (by omega)
  have hp := doyParts ((z + 719468) % 146097 -
    (365 * yoeOf ((z + 719468) % 146097) + yoeOf ((z + 719468) % 146097) / 4 -
      yoeOf ((z + 719468) % 146097) / 100)) (by omega) (by omega)
  have g1 : (z + 719468) % 146097 -
      (365 * yoeOf ((z + 719468) % 146097) + yoeOf ((z + 719468) % 146097) / 4 -
        yoeOf ((z + 719468) % 146097) / 100) = 365 →
      (yoeOf ((z + 719468) % 146097) + 1) % 4 = 0 ∧
      ((yoeOf ((z + 719468) % 146097) + 1) % 100 ≠ 0 ∨
        (yoeOf ((z + 719468) % 146097) + 1) % 400 = 0) := by
    intro hdoy
    exact leap_step (yoeOf ((z + 719468) % 146097)) h0 h1 (by omega)
  have g2 : (yoeOf ((z + 719468) % 146097) + (z + 719468) / 146097 * 400 + 1) % 4
      = (yoeOf ((z + 719468) % 146097) + 1) % 4 := by omega
  have g3 : (yoeOf ((z + 719468) % 146097) + (z + 719468) / 146097 * 400 + 1) % 100
      = (yoeOf ((z + 719468) % 146097) + 1) % 100 := by omega
  have g4 : (yoeOf ((z + 719468) % 146097) + (z + 719468) / 146097 * 400 + 1) % 400
      = (yoeOf ((z + 719468) % 146097) + 1) % 400 := by omega
  unfold fromDayNumber CivDate.Valid daysInMonth isLeap
  simp only [decide_eq_true_eq, Bool.and_eq_true, Bool.or_eq_true, bne_iff_ne,
    beq_iff_eq, ne_eq]
  refine ⟨?_, ?_, ?_, ?_⟩ <;> (repeat' split) <;> omega

/-- Day-of-year of a date inside its shifted (March-first) year. -/
def doyOf (m d : Int) : Int :=
  (153 * (if m ≤ 2 then m + 9 else m - 3) + 2) / 5 + (d - 1)

/-- Shifted year (the calendar year in which the date's March-first year began). -/
def shiftYear (dt : CivDate) : Int :=
  if dt.month ≤ 2 then dt.year - 1 else dt.year

theorem toDayNumber_eq_shift (dt : CivDate) :
    toDayNumber dt = 365 * shiftYear dt + shiftYear dt / 4 - shiftYear dt / 100
      + shiftYear dt / 400 + doyOf dt.month dt.day - 719468 := by
  unfold toDayNumber shiftYear doyOf
  split <;> simp only []

theorem doyOf_bounds (y m d : Int) (hv : (CivDate.mk y m d).Valid) :
    0 ≤ doyOf m d ∧ doyOf m d ≤ 365 ∧
    (doyOf m d = 365 → m = 2 ∧ d = 29 ∧ isLeap y = true) := by
  obtain ⟨h1, h2, h3, h4⟩ := hv
  simp only at h1 h2 h3 h4
  unfold daysInMonth isLeap at h4
  unfold doyOf isLeap
  simp only [decide_eq_true_eq, Bool.and_eq_true, Bool.or_eq_true, bne_iff_ne,
    beq_iff_eq, ne_eq] at h4 ⊢
  refine ⟨?_, ?_, fun hdoy => ?_⟩
  · split_ifs at h4 ⊢ <;> omega
  · split_ifs at h4 ⊢ <;> omega
  · split_ifs at h4 hdoy ⊢ <;> omega

theorem doyOf_lt (y m d y' m' d' : Int) (hv : (CivDate.mk y m d).Valid)
    (hv' : (CivDate.mk y' m' d').Valid)
    (hmm : (if m ≤ 2 then m + 9 else m - 3) < (if m' ≤ 2 then m' + 9 else m' - 3)) :
    doyOf m d < doyOf m' d' := by
  obtain ⟨h1, h2, h3, h4⟩ := hv
  obtain ⟨g1, g2, g3, g4⟩ := hv'
  simp only at h1 h2 h3 h4 g1 g2 g3 g4
  unfold daysInMonth isLeap at h4
  have hd31 : d ≤ 31 := by split_ifs at h4 <;> omega
  have hd30 : m = 4 ∨ m = 6 ∨ m = 9 ∨ m = 11 → d ≤ 30 := by
    intro hm; split_ifs at h4 <;> omega
  have hd29 : m = 2 → d ≤ 29 := by
    intro hm; split_ifs at h4 <;> omega
  unfold doyOf
  interval_cases m <;> split <;> omega

theorem base_lt (u u' w w' : Int) (h : u < u') (hw0 : 0 ≤ w') (hw1 : w ≤ 365)
    (hleap : w = 365 → (u + 1) % 4 = 0 ∧ ((u + 1) % 100 ≠ 0 ∨ (u + 1) % 400 = 0)) :
    365 * u + u / 4 - u / 100 + u / 400 + w <
    365 * u' + u' / 4 - u' / 100 + u' / 400 + w' := by
  have hm : 365 * (u + 1) + (u + 1) / 4 - (u + 1) / 100 + (u + 1) / 400
      ≤ 365 * u' + u' / 4 - u' / 100 + u' / 400 := by omega
  have t1 : (u + 1) / 4 = u / 4 ∨ ((u + 1) / 4 = u / 4 + 1 ∧ (u + 1) % 4 = 0) := by
    omega
  have t2 : (u + 1) / 100 = u / 100 ∨
      ((u + 1) / 100 = u / 100 + 1 ∧ (u + 1) % 100 = 0) := by omega
  have t3 : (u + 1) / 400 = u / 400 ∨
      ((u + 1) / 400 = u / 400 + 1 ∧ (u + 1) % 400 = 0) := by omega
  have t21 : (u + 1) % 100 = 0 → (u + 1) % 4 = 0 := by omega
  have t32 : (u + 1) % 400 = 0 → (u + 1) % 100 = 0 := by omega
  rcases (show w ≤ 364 ∨ w = 365 by omega) with hw | hw
  · rcases t1 with hA | hA <;> rcases t2 with hB | hB <;> rcases t3 with hC | hC <;> omega
  · obtain ⟨p4, p100⟩ := hleap hw
    rcases t1 with hA | hA <;> rcases t2 with hB | hB <;> rcases t3 with hC | hC <;> omega

/-- `toDayNumber` is strictly monotone in calendar-lexicographic order. -/
theorem toDayNumber_lt (a b : CivDate) (ha : a.Valid) (hb : b.Valid)
    (h : a.year < b.year ∨ (a.year = b.year ∧
      (a.month < b.month ∨ (a.month = b.month ∧ a.day < b.day)))) :
    toDayNumber a < toDayNumber b := by
  obtain ⟨ya, ma, da⟩ := a
  obtain ⟨yb, mb, db⟩ := b
  have hda := doyOf_bounds ya ma da ha
  have hdb := doyOf_bounds yb mb db hb
  have ea := toDayNumber_eq_shift (CivDate.mk ya ma da)
  have eb := toDayNumber_eq_shift (CivDate.mk yb mb db)
  simp only at ea eb h
  rcases (show shiftYear (CivDate.mk ya ma da) < shiftYear (CivDate.mk yb mb db) ∨
      (shiftYear (CivDate.mk ya ma da) = shiftYear (CivDate.mk yb mb db) ∧
        (if ma ≤ 2 then ma + 9 else ma - 3) < (if mb ≤ 2 then mb + 9 else mb - 3)) ∨
      (shiftYear (CivDate.mk ya ma da) = shiftYear (CivDate.mk yb mb db) ∧
        ma = mb ∧ da < db) by
    obtain ⟨q1, q2, q3, q4⟩ := ha
    obtain ⟨r1, r2, r3, r4⟩ := hb
    simp only at q1 q2 r1 r2
    unfold shiftYear
    simp only []
    split_ifs <;> omega) with hc | hc | hc
  · have hleap : doyOf ma da = 365 →
        (shiftYear (CivDate.mk ya ma da) + 1) % 4 = 0 ∧
        ((shiftYear (CivDate.mk ya ma da) + 1) % 100 ≠ 0 ∨
          (shiftYear (CivDate.mk ya ma da) + 1) % 400 = 0) := by
      intro hz
      obtain ⟨hm2, hd29, hl⟩ := hda.2.2 hz
      unfold isLeap at hl
      simp only [decide_eq_true_eq, Bool.and_eq_true, Bool.or_eq_true,
        bne_iff_ne, beq_iff_eq, ne_eq] at hl
      unfold shiftYear
      simp only []
      split_ifs <;> omega
    have := base_lt (shiftYear (CivDate.mk ya ma da)) (shiftYear (CivDate.mk yb mb db))
      (doyOf ma da) (doyOf mb db) hc hdb.1 hda.2.1 hleap
    omega
  · have := doyOf_lt ya ma da yb mb db ha hb hc.2
    omega
  · obtain ⟨hy, hm, hd⟩ := hc
    have hdoy : doyOf ma da < doyOf mb db := by
      unfold doyOf; rw [hm]; omega
    omega

/-- `toDayNumber` is injective on valid dates. -/
theorem toDayNumber_inj (a b : CivDate) (ha : a.Valid) (hb : b.Valid)
    (h : toDayNumber a = toDayNumber b) : a = b := by
  by_contra hne
  rcases (show (a.year < b.year ∨ (a.year = b.year ∧
      (a.month < b.month ∨ (a.month = b.month ∧ a.day < b.day)))) ∨
      (b.year < a.year ∨ (b.year = a.year ∧
      (b.month < a.month ∨ (b.month = a.month ∧ b.day < a.day)))) by
    obtain ⟨ya, ma, da⟩ := a
    obtain ⟨yb, mb, db⟩ := b
    simp only [CivDate.mk.injEq, not_and] at hne ⊢
    omega) with hlt | hlt
  · exact absurd h (by have := toDayNumber_lt a b ha hb hlt; omega)
  · exact absurd h (by have := toDayNumber_lt b a hb ha hlt; omega)

/-- Round-trip: converting a valid civil date to its day number and back
recovers the date. -/
theorem fromDayNumber_toDayNumber (d : CivDate) (h : d.Valid) :
    fromDayNumber (toDayNumber d) = d :=
  toDayNumber_inj (fromDayNumber (toDayNumber d)) d
    (fromDayNumber_valid (toDayNumber d)) h
    (toDayNumber_fromDayNumber (toDayNumber d))

/-! ## Helper steps for the MONTHLY / YEARLY cursors -/

/-- First day of the month after `(y, m)` (what `date-fns addMonths` produces
when applied to a first-of-month cursor). -/
def nextMonthFirst (y m : Int) : CivDate :=
  if m = 12 then ⟨y + 1, 1, 1⟩ else ⟨y, m + 1, 1⟩

set_option maxHeartbeats 1600000 in
theorem nextMonthFirst_day (y m : Int) (h1 : 1 ≤ m) (h2 : m ≤ 12) :
    toDayNumber (nextMonthFirst y m) = toDayNumber ⟨y, m, 1⟩ + daysInMonth y m := by
  have t1 : y / 4 = (y - 1) / 4 ∨ (y / 4 = (y - 1) / 4 + 1 ∧ y % 4 = 0) := by omega
  have t2 : y / 100 = (y - 1) / 100 ∨
      (y / 100 = (y - 1) / 100 + 1 ∧ y % 100 = 0) := by omega
  have t3 : y / 400 = (y - 1) / 400 ∨
      (y / 400 = (y - 1) / 400 + 1 ∧ y % 400 = 0) := by omega
  have t21 : y % 100 = 0 → y % 4 = 0 := by omega
  have t32 : y % 400 = 0 → y % 100 = 0 := by omega
  unfold nextMonthFirst
  rcases eq_or_ne m 12 with hm | hm
  · subst hm
    rw [if_pos rfl]
    unfold toDayNumber daysInMonth isLeap
    dsimp only
    norm_num
    simp only [decide_eq_true_eq, Bool.and_eq_true, Bool.or_eq_true,
      bne_iff_ne, beq_iff_eq, ne_eq] at *
    rcases t1 with q1 | ⟨q1, q1'⟩ <;> rcases t2 with q2 | ⟨q2, q2'⟩ <;>
      rcases t3 with q3 | ⟨q3, q3'⟩ <;> omega
  · rw [if_neg hm]
    unfold toDayNumber daysInMonth isLeap
    dsimp only
    interval_cases m <;> norm_num <;> (repeat' split) <;>
      (try simp only [decide_eq_true_eq, Bool.and_eq_true, Bool.or_eq_true,
        bne_iff_ne, beq_iff_eq, ne_eq] at *) <;>
      rcases t1 with q1 | ⟨q1, q1'⟩ <;> rcases t2 with q2 | ⟨q2, q2'⟩ <;>
      rcases t3 with q3 | ⟨q3, q3'⟩ <;> omega

theorem nextMonthFirst_valid (y m : Int) (h1 : 1 ≤ m) (h2 : m ≤ 12) :
    (nextMonthFirst y m).Valid := by
  unfold nextMonthFirst CivDate.Valid daysInMonth isLeap
  split <;> (repeat' split) <;> (try dsimp only at *) <;> omega

theorem toDayNumber_day (y m d : Int) :
    toDayNumber ⟨y, m, d⟩ = toDayNumber ⟨y, m, 1⟩ + (d - 1) := by
  unfold toDayNumber
  dsimp only
  repeat' split <;> omega

/-- `date-fns addYears date 1`: same month, day clamped to the target month. -/
def addYearsCiv (c : CivDate) : CivDate :=
  ⟨c.year + 1, c.month, min c.day (daysInMonth (c.year + 1) c.month)⟩

theorem addYearsCiv_valid (c : CivDate) (h : c.Valid) : (addYearsCiv c).Valid := by
  obtain ⟨y, m, d⟩ := c
  obtain ⟨h1, h2, h3, h4⟩ := h
  simp only at h1 h2 h3 h4
  unfold addYearsCiv CivDate.Valid daysInMonth isLeap at *
  simp only [decide_eq_true_eq, Bool.and_eq_true, Bool.or_eq_true, bne_iff_ne,
    beq_iff_eq, ne_eq] at *
  repeat' split
  all_goals omega

theorem addYearsCiv_lt (c : CivDate) (h : c.Valid) :
    toDayNumber c < toDayNumber (addYearsCiv c) := by
  apply toDayNumber_lt c (addYearsCiv c) h (addYearsCiv_valid c h)
  left
  unfold addYearsCiv
  dsimp only
  omega

/-! ## The recurrence expander

`getRecurringDates` exists in three copies in the repository: the shared
utils module (which also handles DAILY and WEEKLY), and two variants in
`queryClient.ts`.  Dates are day numbers; the anchor argument is a
`DateInput` so that absent and unparseable inputs (which fall back to the
current date) are representable. -/

/-- The anchor-date argument: a parseable date (its UTC calendar day), an
unparseable string / invalid `Date`, or `undefined`. -/
inductive DateInput where
  | valid (day : Int)
  | invalid
  | absent
deriving DecidableEq, Repr

/-- `ensureValidDate`: absent or invalid inputs fall back to the current
date `now`; valid inputs are normalized to noon UTC of their calendar day
(the identity at day granularity). -/
def ensureValidDate (now : Int) (d : DateInput) : Int :=
  match d with
  | .valid day => day
  | .invalid => now
  | .absent => now

/-- JS `toUpperCase` on a frequency string (ASCII code points). -/
def upper (s : String) : List Char :=
  s.data.map Char.toUpper

/-- `while (cur <= end) { push(cur); cur = addDays(cur, 1) }` (DAILY). -/
def dailyLoop (endDay : Int) (cur : Int) : List Int :=
  if cur ≤ endDay then cur :: dailyLoop endDay (cur + 1) else []
termination_by (endDay + 1 - cur).toNat
decreasing_by omega

/-- WEEKLY loop: step 7 days. -/
def weeklyLoop (endDay : Int) (cur : Int) : List Int :=
  if cur ≤ endDay then cur :: weeklyLoop endDay (cur + 7) else []
termination_by (endDay + 1 - cur).toNat
decreasing_by omega

/-- BIWEEKLY loop: step 14 days. -/
def biweeklyLoop (endDay : Int) (cur : Int) : List Int :=
  if cur ≤ endDay then cur :: biweeklyLoop endDay (cur + 14) else []
termination_by (endDay + 1 - cur).toNat
decreasing_by omega

/-- MONTHLY loop: the cursor `fm` is the day number of a first-of-month;
each iteration emits the anchor day clamped to the month when it falls in
`[startDay, endDay]`, then advances one month. -/
def monthlyLoop (dayOfMonth startDay endDay : Int) (fm : Int) : List Int :=
  if _h : fm ≤ endDay then
    let c := fromDayNumber fm
    let actualDay := min dayOfMonth (daysInMonth c.year c.month)
    let cand := toDayNumber ⟨c.year, c.month, actualDay⟩
    (if startDay ≤ cand ∧ cand ≤ endDay then [cand] else []) ++
      monthlyLoop dayOfMonth startDay endDay (toDayNumber (nextMonthFirst c.year c.month))
  else []
termination_by (endDay + 1 - fm).toNat
decreasing_by
  have hv := fromDayNumber_valid fm
  obtain ⟨p1, p2, -, p4⟩ := hv
  have hrt := toDayNumber_fromDayNumber fm
  have hnm := nextMonthFirst_day (fromDayNumber fm).year (fromDayNumber fm).month p1 p2
  have hd := toDayNumber_day (fromDayNumber fm).year (fromDayNumber fm).month
    (fromDayNumber fm).day
  have hccc : (⟨(fromDayNumber fm).year, (fromDayNumber fm).month,
      (fromDayNumber fm).day⟩ : CivDate) = fromDayNumber fm := rfl
  rw [hccc] at hd
  omega

/-- YEARLY loop: `while (cur <= end) { push(cur); cur = addYears(cur, 1) }`. -/
def yearlyLoop (endDay : Int) (cur : Int) : List Int :=
  if _h : cur ≤ endDay then
    cur :: yearlyLoop endDay (toDayNumber (addYearsCiv (fromDayNumber cur)))
  else []
termination_by (endDay + 1 - cur).toNat
decreasing_by
  have hv := fromDayNumber_valid cur
  have hlt := addYearsCiv_lt (fromDayNumber cur) hv
  have hrt := toDayNumber_fromDayNumber cur
  omega

/-- Stable insertion used by the model of JS `Array.prototype.sort`
(ECMA-262 requires a stable sort consistent with the comparator). -/
def stableInsert {α : Type} (le : α → α → Bool) (x : α) : List α → List α
  | [] => [x]
  | y :: ys => if le x y then x :: y :: ys else y :: stableInsert le x ys

/-- Model of JS `Array.prototype.sort` with a consistent comparator. -/
def stableSort {α : Type} (le : α → α → Bool) : List α → List α
  | [] => []
  | x :: xs => stableInsert le x (stableSort le xs)

/-- Day number of the default window end `new Date(2030, 11, 31)`
(December 31, 2030). -/
def defaultEndDay : Int := toDayNumber ⟨2030, 12, 31⟩

/-- The utils-module copy of `getRecurringDates` (also handles DAILY and
WEEKLY).  `endDay` is the day of the normalized `endDate` argument; callers
that omit the argument pass `defaultEndDay`. -/
def getRecurringDates (now : Int) (startDate : DateInput) (frequency : String)
    (endDay : Int) : List Int :=
  let start := ensureValidDate now startDate
  let dates :=
    if upper frequency = "DAILY".data then dailyLoop endDay start
    else if upper frequency = "WEEKLY".data then weeklyLoop endDay start
    else if upper frequency = "BIWEEKLY".data then biweeklyLoop endDay start
    else if upper frequency = "MONTHLY".data then
      monthlyLoop (fromDayNumber start).day start endDay
        (toDayNumber ⟨(fromDayNumber start).year, (fromDayNumber start).month, 1⟩)
    else if upper frequency = "YEARLY".data then yearlyLoop endDay start
    else [start]
  stableSort (fun a b => a ≤ b) dates

/-- BIWEEKLY loop of the first `queryClient.ts` copy, which re-checks
`currentDate >= start` before pushing. -/
def biweeklyLoopChk (startDay endDay : Int) (cur : Int) : List Int :=
  if cur ≤ endDay then
    (if startDay ≤ cur then [cur] else []) ++ biweeklyLoopChk startDay endDay (cur + 14)
  else []
termination_by (endDay + 1 - cur).toNat
decreasing_by omega

/-- YEARLY loop of the first `queryClient.ts` copy (`currentYear >= start`
re-check before pushing). -/
def yearlyLoopChk (startDay endDay : Int) (cur : Int) : List Int :=
  if _h : cur ≤ endDay then
    (if startDay ≤ cur then [cur] else []) ++
      yearlyLoopChk startDay endDay (toDayNumber (addYearsCiv (fromDayNumber cur)))
  else []
termination_by (endDay + 1 - cur).toNat
decreasing_by
  have hv := fromDayNumber_valid cur
  have hlt := addYearsCiv_lt (fromDayNumber cur) hv
  have hrt := toDayNumber_fromDayNumber cur
  omega

/-- First `queryClient.ts` copy.  `frequency` may be `undefined` (defaults
to ONCE); no DAILY/WEEKLY branches. -/
def getRecurringDatesQC1 (now : Int) (startDate : DateInput)
    (frequency : Option String) (endDay : Int) : List Int :=
  let start := ensureValidDate now startDate
  let freq := match frequency with
    | none => "ONCE"
    | some f => f
  let dates :=
    if upper freq = "BIWEEKLY".data then biweeklyLoopChk start endDay start
    else if upper freq = "MONTHLY".data then
      monthlyLoop (fromDayNumber start).day start endDay
        (toDayNumber ⟨(fromDayNumber start).year, (fromDayNumber start).month, 1⟩)
    else if upper freq = "YEARLY".data then yearlyLoopChk start endDay start
    else [start]
  stableSort (fun a b => a ≤ b) dates

/-- Noon-UTC re-normalization used by the second `queryClient.ts` copy
(`new Date(Date.UTC(d.getUTCFullYear(), d.getUTCMonth(), d.getUTCDate(), 12, 0, 0))`):
at day granularity, re-extracting the civil fields and rebuilding. -/
def renormalize (d : Int) : Int :=
  toDayNumber (fromDayNumber d)

/-- BIWEEKLY loop of the second `queryClient.ts` copy (re-check plus UTC
re-normalization of the pushed date). -/
def biweeklyLoopNorm (startDay endDay : Int) (cur : Int) : List Int :=
  if cur ≤ endDay then
    (if startDay ≤ cur then [renormalize cur] else []) ++
      biweeklyLoopNorm startDay endDay (cur + 14)
  else []
termination_by (endDay + 1 - cur).toNat
decreasing_by omega

/-- YEARLY loop of the second `queryClient.ts` copy. -/
def yearlyLoopNorm (startDay endDay : Int) (cur : Int) : List Int :=
  if _h : cur ≤ endDay then
    (if startDay ≤ cur then [renormalize cur] else []) ++
      yearlyLoopNorm startDay endDay (toDayNumber (addYearsCiv (fromDayNumber cur)))
  else []
termination_by (endDay + 1 - cur).toNat
decreasing_by
  have hv := fromDayNumber_valid cur
  have hlt := addYearsCiv_lt (fromDayNumber cur) hv
  have hrt := toDayNumber_fromDayNumber cur
  omega

/-- Second `queryClient.ts` copy (UTC-normalizing pushes). -/
def getRecurringDatesQC2 (now : Int) (startDate : DateInput)
    (frequency : Option String) (endDay : Int) : List Int :=
  let start := ensureValidDate now startDate
  let freq := match frequency with
    | none => "ONCE"
    | some f => f
  let dates :=
    if upper freq = "BIWEEKLY".data then biweeklyLoopNorm start endDay start
    else if upper freq = "MONTHLY".data then
      monthlyLoop (fromDayNumber start).day start endDay
        (toDayNumber ⟨(fromDayNumber start).year, (fromDayNumber start).month, 1⟩)
    else if upper freq = "YEARLY".data then yearlyLoopNorm start endDay start
    else [renormalize start]
  stableSort (fun a b => a ≤ b) dates

/-! ## Sorting lemmas for the model of `Array.prototype.sort` -/

theorem stableInsert_perm {α : Type} (le : α → α → Bool) (x : α) (l : List α) :
    (stableInsert le x l).Perm (x :: l) := by
  induction l with
  | nil => simp [stableInsert]
  | cons y ys ih =>
    unfold stableInsert
    split
    · exact List.Perm.refl _
    · exact ((ih.cons y).trans (List.Perm.swap x y ys)).symm.symm

theorem stableSort_perm {α : Type} (le : α → α → Bool) (l : List α) :
    (stableSort le l).Perm l := by
  induction l with
  | nil => simp [stableSort]
  | cons x xs ih =>
    unfold stableSort
    exact (stableInsert_perm le x (stableSort le xs)).trans (ih.cons x)

theorem stableInsert_sorted {α : Type} (le : α → α → Bool)
    (htot : ∀ a b, le a b = false → le b a = true)
    (htrans : ∀ a b c, le a b = true → le b c = true → le a c = true)
    (x : α) (l : List α)
    (hl : l.Pairwise (fun a b => le a b = true)) :
    (stableInsert le x l).Pairwise (fun a b => le a b = true) := by
  induction l with
  | nil => simp [stableInsert]
  | cons y ys ih =>
    rcases hl with _ | ⟨hy, hys⟩
    unfold stableInsert
    split
    next hxy =>
      refine List.Pairwise.cons ?_ (List.Pairwise.cons hy hys)
      intro b hb
      rcases List.mem_cons.mp hb with rfl | hb'
      · exact hxy
      · exact htrans _ _ _ hxy (hy b hb')
    next hxy =>
      refine List.Pairwise.cons ?_ (ih hys)
      intro b hb
      have hxyf : le x y = false := by revert hxy; cases le x y <;> simp
      rcases List.mem_cons.mp ((stableInsert_perm le x ys).mem_iff.mp hb) with hbx | hb'
      · rw [hbx]; exact htot x y hxyf
      · exact hy b hb'

theorem stableSort_sorted {α : Type} (le : α → α → Bool)
    (htot : ∀ a b, le a b = false → le b a = true)
    (htrans : ∀ a b c, le a b = true → le b c = true → le a c = true)
    (l : List α) :
    (stableSort le l).Pairwise (fun a b => le a b = true) := by
  induction l with
  | nil => simp [stableSort]
  | cons x xs ih =>
    exact stableInsert_sorted le htot htrans x _ ih

theorem stableSort_of_sorted {α : Type} (le : α → α → Bool) (l : List α)
    (hl : l.Pairwise (fun a b => le a b = true)) :
    stableSort le l = l := by
  induction l with
  | nil => rfl
  | cons x xs ih =>
    rcases hl with _ | ⟨hx, hxs⟩
    unfold stableSort
    rw [ih hxs]
    cases xs with
    | nil => rfl
    | cons y ys =>
      unfold stableInsert
      rw [if_pos (hx y (List.mem_cons_self y ys))]

/-! ## Characterizations of the expansion loops -/

theorem renormalize_eq (d : Int) : renormalize d = d :=
  toDayNumber_fromDayNumber d

/-- Fixed-step expansion as the specification describes it: emit
`anchor`, `anchor + step`, `anchor + 2*step`, … while the cursor is at most
`windowEnd`. -/
def arithSpec (step anchor endDay : Int) : List Int :=
  (List.range (if anchor ≤ endDay then ((endDay - anchor) / step + 1).toNat else 0)).map
    (fun k : Nat => anchor + step * (k : Int))

theorem dailyLoop_eq (endDay cur : Int) :
    dailyLoop endDay cur = arithSpec 1 cur endDay := by
  unfold arithSpec
  induction cur using dailyLoop.induct endDay with
  | case1 c hc ih =>
    rw [dailyLoop, if_pos hc, ih, if_pos hc]
    rcases (show c + 1 ≤ endDay ∨ ¬ (c + 1 ≤ endDay) by omega) with h1 | h1
    · rw [if_pos h1,
        show ((endDay - c) / 1 + 1).toNat = ((endDay - (c + 1)) / 1 + 1).toNat + 1 by
          omega,
        List.range_succ_eq_map]
      simp only [List.map_cons, List.map_map, Nat.cast_zero, mul_zero, add_zero]
      refine congrArg₂ List.cons rfl ?_
      refine List.map_congr_left fun k _ => ?_
      simp only [Function.comp_apply]
      push_cast
      ring
    · rw [if_neg h1, show ((endDay - c) / 1 + 1).toNat = 1 by omega]
      norm_num [show (1 : Nat) = 0 + 1 from rfl, List.range_succ]
  | case2 c hc =>
    rw [dailyLoop, if_neg hc, if_neg hc]
    simp

theorem weeklyLoop_eq (endDay cur : Int) :
    weeklyLoop endDay cur = arithSpec 7 cur endDay := by
  unfold arithSpec
  induction cur using weeklyLoop.induct endDay with
  | case1 c hc ih =>
    rw [weeklyLoop, if_pos hc, ih, if_pos hc]
    rcases (show c + 7 ≤ endDay ∨ ¬ (c + 7 ≤ endDay) by omega) with h1 | h1
    · rw [if_pos h1,
        show ((endDay - c) / 7 + 1).toNat = ((endDay - (c + 7)) / 7 + 1).toNat + 1 by
          omega,
        List.range_succ_eq_map]
      simp only [List.map_cons, List.map_map, Nat.cast_zero, mul_zero, add_zero]
      refine congrArg₂ List.cons rfl ?_
      refine List.map_congr_left fun k _ => ?_
      simp only [Function.comp_apply]
      push_cast
      ring
    · rw [if_neg h1, show ((endDay - c) / 7 + 1).toNat = 1 by omega]
      norm_num [show (1 : Nat) = 0 + 1 from rfl, List.range_succ]
  | case2 c hc =>
    rw [weeklyLoop, if_neg hc, if_neg hc]
    simp

theorem biweeklyLoop_eq (endDay cur : Int) :
    biweeklyLoop endDay cur = arithSpec 14 cur endDay := by
  unfold arithSpec
  induction cur using biweeklyLoop.induct endDay with
  | case1 c hc ih =>
    rw [biweeklyLoop, if_pos hc, ih, if_pos hc]
    rcases (show c + 14 ≤ endDay ∨ ¬ (c + 14 ≤ endDay) by omega) with h1 | h1
    · rw [if_pos h1,
        show ((endDay - c) / 14 + 1).toNat = ((endDay - (c + 14)) / 14 + 1).toNat + 1 by
          omega,
        List.range_succ_eq_map]
      simp only [List.map_cons, List.map_map, Nat.cast_zero, mul_zero, add_zero]
      refine congrArg₂ List.cons rfl ?_
      refine List.map_congr_left fun k _ => ?_
      simp only [Function.comp_apply]
      push_cast
      ring
    · rw [if_neg h1, show ((endDay - c) / 14 + 1).toNat = 1 by omega]
      norm_num [show (1 : Nat) = 0 + 1 from rfl, List.range_succ]
  | case2 c hc =>
    rw [biweeklyLoop, if_neg hc, if_neg hc]
    simp

theorem biweeklyLoopChk_eq (startDay endDay : Int) :
    ∀ cur, startDay ≤ cur →
      biweeklyLoopChk startDay endDay cur = biweeklyLoop endDay cur := by
  intro cur
  induction cur using biweeklyLoopChk.induct startDay endDay with
  | case1 c hc ih =>
    intro hs
    rw [biweeklyLoopChk, if_pos hc, biweeklyLoop, if_pos hc, ih (by omega)]
    rw [if_pos hs]
    rfl
  | case2 c hc =>
    intro _
    rw [biweeklyLoopChk, if_neg hc, biweeklyLoop, if_neg hc]

theorem biweeklyLoopNorm_eq (startDay endDay : Int) :
    ∀ cur, startDay ≤ cur →
      biweeklyLoopNorm startDay endDay cur = biweeklyLoop endDay cur := by
  intro cur
  induction cur using biweeklyLoopNorm.induct startDay endDay with
  | case1 c hc ih =>
    intro hs
    rw [biweeklyLoopNorm, if_pos hc, biweeklyLoop, if_pos hc, ih (by omega)]
    rw [if_pos hs, renormalize_eq]
    rfl
  | case2 c hc =>
    intro _
    rw [biweeklyLoopNorm, if_neg hc, biweeklyLoop, if_neg hc]

theorem yearlyLoopChk_eq (startDay endDay : Int) :
    ∀ cur, startDay ≤ cur →
      yearlyLoopChk startDay endDay cur = yearlyLoop endDay cur := by
  intro cur
  induction cur using yearlyLoopChk.induct startDay endDay with
  | case1 c hc ih =>
    intro hs
    have hnext := addYearsCiv_lt (fromDayNumber c) (fromDayNumber_valid c)
    have hrt := toDayNumber_fromDayNumber c
    rw [yearlyLoopChk, dif_pos hc, yearlyLoop, dif_pos hc, ih (by omega)]
    rw [if_pos hs]
    rfl
  | case2 c hc =>
    intro _
    rw [yearlyLoopChk, dif_neg hc, yearlyLoop, dif_neg hc]

theorem yearlyLoopNorm_eq (startDay endDay : Int) :
    ∀ cur, startDay ≤ cur →
      yearlyLoopNorm startDay endDay cur = yearlyLoop endDay cur := by
  intro cur
  induction cur using yearlyLoopNorm.induct startDay endDay with
  | case1 c hc ih =>
    intro hs
    have hnext := addYearsCiv_lt (fromDayNumber c) (fromDayNumber_valid c)
    have hrt := toDayNumber_fromDayNumber c
    rw [yearlyLoopNorm, dif_pos hc, yearlyLoop, dif_pos hc, ih (by omega)]
    rw [if_pos hs, renormalize_eq]
    rfl
  | case2 c hc =>
    intro _
    rw [yearlyLoopNorm, dif_neg hc, yearlyLoop, dif_neg hc]

theorem yearlyLoop_mem_ge (endDay : Int) :
    ∀ cur, ∀ x ∈ yearlyLoop endDay cur, cur ≤ x := by
  intro cur
  induction cur using yearlyLoop.induct endDay with
  | case1 c hc ih =>
    intro x hx
    have hnext := addYearsCiv_lt (fromDayNumber c) (fromDayNumber_valid c)
    have hrt := toDayNumber_fromDayNumber c
    rw [yearlyLoop, dif_pos hc] at hx
    rcases List.mem_cons.mp hx with rfl | hx'
    · omega
    · have := ih x hx'
      omega
  | case2 c hc =>
    intro x hx
    rw [yearlyLoop, dif_neg hc] at hx
    simp at hx

theorem yearlyLoop_sorted (endDay : Int) :
    ∀ cur, (yearlyLoop endDay cur).Pairwise (· < ·) := by
  intro cur
  induction cur using yearlyLoop.induct endDay with
  | case1 c hc ih =>
    have hnext := addYearsCiv_lt (fromDayNumber c) (fromDayNumber_valid c)
    have hrt := toDayNumber_fromDayNumber c
    rw [yearlyLoop, dif_pos hc]
    refine List.Pairwise.cons ?_ ih
    intro b hb
    have := yearlyLoop_mem_ge endDay _ b hb
    omega
  | case2 c hc =>
    rw [yearlyLoop, dif_neg hc]
    exact List.Pairwise.nil

/-! ## The MONTHLY loop: membership characterization -/

theorem valid_first (y m : Int) (h1 : 1 ≤ m) (h2 : m ≤ 12) :
    (CivDate.mk y m 1).Valid := by
  unfold CivDate.Valid daysInMonth isLeap
  dsimp only
  repeat' split
  all_goals omega

theorem valid_clamp (y m dm : Int) (h1 : 1 ≤ m) (h2 : m ≤ 12) (hdm : 1 ≤ dm) :
    (CivDate.mk y m (min dm (daysInMonth y m))).Valid := by
  unfold CivDate.Valid daysInMonth isLeap
  dsimp only
  repeat' split
  all_goals omega

theorem toDayNumber_le (a b : CivDate) (ha : a.Valid) (hb : b.Valid)
    (h : a.year < b.year ∨ (a.year = b.year ∧
      (a.month < b.month ∨ (a.month = b.month ∧ a.day ≤ b.day)))) :
    toDayNumber a ≤ toDayNumber b := by
  rcases (show a = b ∨ (a.year < b.year ∨ (a.year = b.year ∧
      (a.month < b.month ∨ (a.month = b.month ∧ a.day < b.day)))) by
    obtain ⟨ya, ma, da⟩ := a
    obtain ⟨yb, mb, db⟩ := b
    simp only [CivDate.mk.injEq] at h ⊢
    omega) with hc | hc
  · rw [hc]
  · exact le_of_lt (toDayNumber_lt a b ha hb hc)

/-- Month-firsts are discrete: a strictly later month-first is at least the
next month's first. -/
theorem monthFirst_next_le (Y M y m : Int)
    (hM1 : 1 ≤ M) (hM2 : M ≤ 12) (hm1 : 1 ≤ m) (hm2 : m ≤ 12)
    (h : toDayNumber ⟨Y, M, 1⟩ < toDayNumber ⟨y, m, 1⟩) :
    toDayNumber (nextMonthFirst Y M) ≤ toDayNumber ⟨y, m, 1⟩ := by
  have hvA := valid_first Y M hM1 hM2
  have hvB := valid_first y m hm1 hm2
  rcases (show (Y = y ∧ M = m) ∨ (y < Y ∨ (y = Y ∧ m < M)) ∨
      (Y < y ∨ (Y = y ∧ M < m)) by omega) with hc | hc | hc
  · rw [hc.1, hc.2] at h
    omega
  · exfalso
    have := toDayNumber_lt ⟨y, m, 1⟩ ⟨Y, M, 1⟩ hvB hvA (by
      simp only []
      omega)
    omega
  · have hnv := nextMonthFirst_valid Y M hM1 hM2
    unfold nextMonthFirst at *
    split at hnv
    · next h12 =>
      rw [if_pos h12]
      apply toDayNumber_le ⟨Y + 1, 1, 1⟩ ⟨y, m, 1⟩ hnv hvB
      simp only []
      omega
    · next h12 =>
      rw [if_neg h12]
      apply toDayNumber_le ⟨Y, M + 1, 1⟩ ⟨y, m, 1⟩ hnv hvB
      simp only []
      omega

set_option maxHeartbeats 1000000 in
theorem monthlyLoop_mem_iff (dm s e : Int) (hdm : 1 ≤ dm) :
    ∀ fm, (fromDayNumber fm).day = 1 →
      ∀ x, x ∈ monthlyLoop dm s e fm ↔
        (s ≤ x ∧ x ≤ e ∧ fm ≤ x ∧
         (fromDayNumber x).day =
           min dm (daysInMonth (fromDayNumber x).year (fromDayNumber x).month)) := by
  intro fm
  induction fm using monthlyLoop.induct dm s e with
  | case1 fm hfe c ih =>
    intro hf1 x
    unfold c at ih
    -- names for the cursor month
    have hvfm := fromDayNumber_valid fm
    obtain ⟨q1, q2, q3, q4⟩ := hvfm
    have hrt : toDayNumber (fromDayNumber fm) = fm := toDayNumber_fromDayNumber fm
    have hfmEq : toDayNumber ⟨(fromDayNumber fm).year, (fromDayNumber fm).month, 1⟩ = fm := by
      rw [← hf1]
      exact hrt
    -- the candidate of this month
    have hvc := valid_clamp (fromDayNumber fm).year (fromDayNumber fm).month dm q1 q2 hdm
    have hcand : fromDayNumber (toDayNumber ⟨(fromDayNumber fm).year,
        (fromDayNumber fm).month, min dm (daysInMonth (fromDayNumber fm).year
          (fromDayNumber fm).month)⟩) =
        ⟨(fromDayNumber fm).year, (fromDayNumber fm).month,
          min dm (daysInMonth (fromDayNumber fm).year (fromDayNumber fm).month)⟩ :=
      fromDayNumber_toDayNumber _ hvc
    have hcday := toDayNumber_day (fromDayNumber fm).year (fromDayNumber fm).month
      (min dm (daysInMonth (fromDayNumber fm).year (fromDayNumber fm).month))
    have hdimlb : 28 ≤ daysInMonth (fromDayNumber fm).year (fromDayNumber fm).month := by
      unfold daysInMonth isLeap
      repeat' split
      all_goals omega
    -- the next cursor
    have hnv := nextMonthFirst_valid (fromDayNumber fm).year (fromDayNumber fm).month q1 q2
    have hnd := nextMonthFirst_day (fromDayNumber fm).year (fromDayNumber fm).month q1 q2
    have hnrt := fromDayNumber_toDayNumber _ hnv
    have hn1 : (fromDayNumber (toDayNumber (nextMonthFirst (fromDayNumber fm).year
        (fromDayNumber fm).month))).day = 1 := by
      rw [hnrt]
      unfold nextMonthFirst
      split <;> rfl
    rw [monthlyLoop, dif_pos hfe]
    rw [List.mem_append]
    rw [ih hn1 x]
    constructor
    · rintro (hx | ⟨hs, he, hge, hday⟩)
      · -- x is this month's candidate
        have hxc : x = toDayNumber ⟨(fromDayNumber fm).year, (fromDayNumber fm).month,
            min dm (daysInMonth (fromDayNumber fm).year (fromDayNumber fm).month)⟩ := by
          split at hx <;> simp at hx
          · exact hx
        subst hxc
        rw [hcand]
        have hrange : s ≤ toDayNumber ⟨(fromDayNumber fm).year, (fromDayNumber fm).month,
            min dm (daysInMonth (fromDayNumber fm).year (fromDayNumber fm).month)⟩ ∧
            toDayNumber ⟨(fromDayNumber fm).year, (fromDayNumber fm).month,
            min dm (daysInMonth (fromDayNumber fm).year (fromDayNumber fm).month)⟩ ≤ e := by
          split at hx
          · next hcnd => exact hcnd
          · simp at hx
        refine ⟨hrange.1, hrange.2, ?_, ?_⟩
        · omega
        · dsimp only
      · -- x comes from a later month
        exact ⟨hs, he, by omega, hday⟩
    · rintro ⟨hs, he, hge, hday⟩
      -- x's own month first
      have hvx := fromDayNumber_valid x
      obtain ⟨r1, r2, r3, r4⟩ := hvx
      have hxr : toDayNumber (fromDayNumber x) = x := toDayNumber_fromDayNumber x
      have hxd := toDayNumber_day (fromDayNumber x).year (fromDayNumber x).month
        (fromDayNumber x).day
      have hxEq : (⟨(fromDayNumber x).year, (fromDayNumber x).month,
          (fromDayNumber x).day⟩ : CivDate) = fromDayNumber x := rfl
      rw [hxEq, hxr] at hxd
      have hxdim : 28 ≤ daysInMonth (fromDayNumber x).year (fromDayNumber x).month := by
        unfold daysInMonth isLeap
        repeat' split
        all_goals omega
      -- fm is at most x's month-first
      have hFle : fm ≤ toDayNumber ⟨(fromDayNumber x).year, (fromDayNumber x).month, 1⟩ := by
        by_contra hlt
        push_neg at hlt
        have := monthFirst_next_le (fromDayNumber x).year (fromDayNumber x).month
          (fromDayNumber fm).year (fromDayNumber fm).month r1 r2 q1 q2 (by omega)
        have hnd2 := nextMonthFirst_day (fromDayNumber x).year (fromDayNumber x).month r1 r2
        omega
      rcases (show fm = toDayNumber ⟨(fromDayNumber x).year, (fromDayNumber x).month, 1⟩ ∨
          fm < toDayNumber ⟨(fromDayNumber x).year, (fromDayNumber x).month, 1⟩ by omega)
        with hFeq | hFlt
      · -- x is in the cursor month: it is the emitted candidate
        left
        have hpair : (fromDayNumber fm).year = (fromDayNumber x).year ∧
            (fromDayNumber fm).month = (fromDayNumber x).month := by
          have := toDayNumber_inj ⟨(fromDayNumber fm).year, (fromDayNumber fm).month, 1⟩
            ⟨(fromDayNumber x).year, (fromDayNumber x).month, 1⟩
            (valid_first _ _ q1 q2) (valid_first _ _ r1 r2) (by omega)
          simp only [CivDate.mk.injEq] at this
          exact ⟨this.1, this.2.1⟩
        have hxcand : x = toDayNumber ⟨(fromDayNumber fm).year, (fromDayNumber fm).month,
            min dm (daysInMonth (fromDayNumber fm).year (fromDayNumber fm).month)⟩ := by
          have hcday2 := toDayNumber_day (fromDayNumber x).year (fromDayNumber x).month
            (min dm (daysInMonth (fromDayNumber x).year (fromDayNumber x).month))
          rw [hpair.1, hpair.2]
          omega
        rw [if_pos ⟨by omega, by omega⟩]
        simp [hxcand]
      · -- x is in a later month: recurse
        right
        refine ⟨hs, he, ?_, hday⟩
        have := monthFirst_next_le (fromDayNumber fm).year (fromDayNumber fm).month
          (fromDayNumber x).year (fromDayNumber x).month q1 q2 r1 r2 (by omega)
        omega
  | case2 fm hfe =>
    intro hf1 x
    rw [monthlyLoop, dif_neg hfe]
    simp only [List.not_mem_nil, false_iff]
    rintro ⟨hs, he, hge, hday⟩
    omega

set_option maxHeartbeats 1000000 in
theorem monthlyLoop_sorted (dm s e : Int) (hdm : 1 ≤ dm) :
    ∀ fm, (fromDayNumber fm).day = 1 →
      (monthlyLoop dm s e fm).Pairwise (· < ·) := by
  intro fm
  induction fm using monthlyLoop.induct dm s e with
  | case1 fm hfe c ih =>
    intro hf1
    unfold c at ih
    have hvfm := fromDayNumber_valid fm
    obtain ⟨q1, q2, q3, q4⟩ := hvfm
    have hrt : toDayNumber (fromDayNumber fm) = fm := toDayNumber_fromDayNumber fm
    have hfmEq : toDayNumber ⟨(fromDayNumber fm).year, (fromDayNumber fm).month, 1⟩ = fm := by
      rw [← hf1]
      exact hrt
    have hcday := toDayNumber_day (fromDayNumber fm).year (fromDayNumber fm).month
      (min dm (daysInMonth (fromDayNumber fm).year (fromDayNumber fm).month))
    have hnv := nextMonthFirst_valid (fromDayNumber fm).year (fromDayNumber fm).month q1 q2
    have hnd := nextMonthFirst_day (fromDayNumber fm).year (fromDayNumber fm).month q1 q2
    have hnrt := fromDayNumber_toDayNumber _ hnv
    have hn1 : (fromDayNumber (toDayNumber (nextMonthFirst (fromDayNumber fm).year
        (fromDayNumber fm).month))).day = 1 := by
      rw [hnrt]
      unfold nextMonthFirst
      split <;> rfl
    rw [monthlyLoop, dif_pos hfe]
    rw [List.pairwise_append]
    refine ⟨?_, ih hn1, ?_⟩
    · split
      · exact List.pairwise_singleton _ _
      · exact List.Pairwise.nil
    · intro b hb y hy
      have hmem := (monthlyLoop_mem_iff dm s e hdm _ hn1 y).mp hy
      have hbc : b = toDayNumber ⟨(fromDayNumber fm).year, (fromDayNumber fm).month,
          min dm (daysInMonth (fromDayNumber fm).year (fromDayNumber fm).month)⟩ := by
        split at hb <;> simp at hb
        · exact hb
      subst hbc
      omega
  | case2 fm hfe =>
    intro _
    rw [monthlyLoop, dif_neg hfe]
    exact List.Pairwise.nil

/-- MONTHLY expansion as the specification words it: the dates in
`[anchor, windowEnd]` whose day-of-month is the anchor's day clamped to the
number of days in that date's month (one such date per month, months
stepped one at a time). -/
def monthlySpec (anchor endDay : Int) : List Int :=
  ((List.range (endDay + 1 - anchor).toNat).map (fun k : Nat => anchor + (k : Int))).filter
    (fun d => (fromDayNumber d).day =
      min (fromDayNumber anchor).day (daysInMonth (fromDayNumber d).year (fromDayNumber d).month))

theorem monthlySpec_mem (a e x : Int) :
    x ∈ monthlySpec a e ↔
      (a ≤ x ∧ x ≤ e ∧ (fromDayNumber x).day =
        min (fromDayNumber a).day (daysInMonth (fromDayNumber x).year (fromDayNumber x).month)) := by
  unfold monthlySpec
  rw [List.mem_filter]
  simp only [List.mem_map, List.mem_range, decide_eq_true_eq]
  constructor
  · rintro ⟨⟨k, hk, rfl⟩, hd⟩
    refine ⟨by omega, by omega, hd⟩
  · rintro ⟨h1, h2, hd⟩
    exact ⟨⟨(x - a).toNat, by omega, by omega⟩, hd⟩

theorem monthlySpec_sorted (a e : Int) : (monthlySpec a e).Pairwise (· < ·) := by
  unfold monthlySpec
  apply List.Pairwise.filter
  refine List.Pairwise.map _ ?_ (List.pairwise_lt_range _)
  intro u v huv
  omega

/-- The MONTHLY branch of `getRecurringDates` computes exactly
`monthlySpec`. -/
theorem monthlyLoop_eq_spec (a e : Int) :
    monthlyLoop (fromDayNumber a).day a e
      (toDayNumber ⟨(fromDayNumber a).year, (fromDayNumber a).month, 1⟩) =
    monthlySpec a e := by
  have hva := fromDayNumber_valid a
  obtain ⟨q1, q2, q3, q4⟩ := hva
  have hrt : toDayNumber (fromDayNumber a) = a := toDayNumber_fromDayNumber a
  have hf1 : (fromDayNumber (toDayNumber ⟨(fromDayNumber a).year,
      (fromDayNumber a).month, 1⟩)).day = 1 := by
    rw [fromDayNumber_toDayNumber _ (valid_first _ _ q1 q2)]
  have had := toDayNumber_day (fromDayNumber a).year (fromDayNumber a).month
    (fromDayNumber a).day
  have haEq : (⟨(fromDayNumber a).year, (fromDayNumber a).month,
      (fromDayNumber a).day⟩ : CivDate) = fromDayNumber a := rfl
  rw [haEq, hrt] at had
  have hsort1 := monthlyLoop_sorted (fromDayNumber a).day a e q3 _ hf1
  have hsort2 := monthlySpec_sorted a e
  have hmem : ∀ x, x ∈ monthlyLoop (fromDayNumber a).day a e
      (toDayNumber ⟨(fromDayNumber a).year, (fromDayNumber a).month, 1⟩) ↔
      x ∈ monthlySpec a e := by
    intro x
    rw [monthlyLoop_mem_iff (fromDayNumber a).day a e q3 _ hf1 x, monthlySpec_mem]
    constructor
    · rintro ⟨h1, h2, h3, h4⟩
      exact ⟨h1, h2, h4⟩
    · rintro ⟨h1, h2, h4⟩
      exact ⟨h1, h2, by omega, h4⟩
  have hperm : (monthlyLoop (fromDayNumber a).day a e
      (toDayNumber ⟨(fromDayNumber a).year, (fromDayNumber a).month, 1⟩)).Perm
      (monthlySpec a e) :=
    (List.perm_ext_iff_of_nodup
      (hsort1.imp fun h => ne_of_lt h) (hsort2.imp fun h => ne_of_lt h)).mpr hmem
  exact List.eq_of_perm_of_sorted hperm
    (hsort1.imp fun h => le_of_lt h) (hsort2.imp fun h => le_of_lt h)

/-! ## Branch lemmas for `getRecurringDates` -/

theorem arithSpec_pairwise (step anchor endDay : Int) (h : 0 < step) :
    (arithSpec step anchor endDay).Pairwise (· < ·) := by
  unfold arithSpec
  refine List.Pairwise.map _ ?_ (List.pairwise_lt_range _)
  intro u v huv
  have : (u : Int) < (v : Int) := by exact_mod_cast huv
  nlinarith

theorem stableSortInt_of_pairwise (l : List Int) (h : l.Pairwise (· < ·)) :
    stableSort (fun a b => a ≤ b) l = l := by
  apply stableSort_of_sorted
  refine h.imp fun hab => ?_
  simp only [decide_eq_true_eq]
  omega

theorem getRecurringDates_daily (now : Int) (s : DateInput) (e : Int) :
    getRecurringDates now s "DAILY" e = arithSpec 1 (ensureValidDate now s) e := by
  unfold getRecurringDates
  simp only []
  rw [if_pos (by decide)]
  rw [dailyLoop_eq]
  exact stableSortInt_of_pairwise _ (arithSpec_pairwise _ _ _ (by omega))

theorem getRecurringDates_weekly (now : Int) (s : DateInput) (e : Int) :
    getRecurringDates now s "WEEKLY" e = arithSpec 7 (ensureValidDate now s) e := by
  unfold getRecurringDates
  simp only []
  rw [if_neg (by decide), if_pos (by decide)]
  rw [weeklyLoop_eq]
  exact stableSortInt_of_pairwise _ (arithSpec_pairwise _ _ _ (by omega))

theorem getRecurringDates_biweekly (now : Int) (s : DateInput) (e : Int) :
    getRecurringDates now s "BIWEEKLY" e = arithSpec 14 (ensureValidDate now s) e := by
  unfold getRecurringDates
  simp only []
  rw [if_neg (by decide), if_neg (by decide), if_pos (by decide)]
  rw [biweeklyLoop_eq]
  exact stableSortInt_of_pairwise _ (arithSpec_pairwise _ _ _ (by omega))

theorem getRecurringDates_monthly (now : Int) (s : DateInput) (e : Int) :
    getRecurringDates now s "MONTHLY" e = monthlySpec (ensureValidDate now s) e := by
  unfold getRecurringDates
  simp only []
  rw [if_neg (by decide), if_neg (by decide), if_neg (by decide), if_pos (by decide)]
  rw [monthlyLoop_eq_spec]
  exact stableSortInt_of_pairwise _ (monthlySpec_sorted _ _)

theorem getRecurringDates_once (now : Int) (s : DateInput) (e : Int) :
    getRecurringDates now s "ONCE" e = [ensureValidDate now s] := by
  unfold getRecurringDates
  simp only []
  rw [if_neg (by decide), if_neg (by decide), if_neg (by decide), if_neg (by decide),
    if_neg (by decide)]
  rfl

theorem getRecurringDates_unknown (now : Int) (s : DateInput) (f : String) (e : Int)
    (h1 : upper f ≠ "DAILY".data) (h2 : upper f ≠ "WEEKLY".data)
    (h3 : upper f ≠ "BIWEEKLY".data) (h4 : upper f ≠ "MONTHLY".data)
    (h5 : upper f ≠ "YEARLY".data) :
    getRecurringDates now s f e = [ensureValidDate now s] := by
  unfold getRecurringDates
  simp only []
  rw [if_neg h1, if_neg h2, if_neg h3, if_neg h4, if_neg h5]
  rfl

theorem getRecurringDatesQC1_unknown (now : Int) (s : DateInput) (f : String) (e : Int)
    (h3 : upper f ≠ "BIWEEKLY".data) (h4 : upper f ≠ "MONTHLY".data)
    (h5 : upper f ≠ "YEARLY".data) :
    getRecurringDatesQC1 now s (some f) e = [ensureValidDate now s] := by
  unfold getRecurringDatesQC1
  simp only []
  rw [if_neg h3, if_neg h4, if_neg h5]
  rfl

theorem getRecurringDatesQC2_unknown (now : Int) (s : DateInput) (f : String) (e : Int)
    (h3 : upper f ≠ "BIWEEKLY".data) (h4 : upper f ≠ "MONTHLY".data)
    (h5 : upper f ≠ "YEARLY".data) :
    getRecurringDatesQC2 now s (some f) e = [ensureValidDate now s] := by
  unfold getRecurringDatesQC2
  simp only []
  rw [if_neg h3, if_neg h4, if_neg h5, renormalize_eq]
  rfl

set_option maxHeartbeats 1000000 in
theorem getRecurringDates_pairwise (now : Int) (s : DateInput) (f : String) (e : Int) :
    (getRecurringDates now s f e).Pairwise (· < ·) := by
  unfold getRecurringDates
  simp only []
  have hv := fromDayNumber_valid (ensureValidDate now s)
  have hf1 : (fromDayNumber (toDayNumber ⟨(fromDayNumber (ensureValidDate now s)).year,
      (fromDayNumber (ensureValidDate now s)).month, 1⟩)).day = 1 := by
    rw [fromDayNumber_toDayNumber _ (valid_first _ _ hv.1 hv.2.1)]
  repeat' split
  · rw [dailyLoop_eq, stableSortInt_of_pairwise _ (arithSpec_pairwise _ _ _ (by omega))]
    exact arithSpec_pairwise _ _ _ (by omega)
  · rw [weeklyLoop_eq, stableSortInt_of_pairwise _ (arithSpec_pairwise _ _ _ (by omega))]
    exact arithSpec_pairwise _ _ _ (by omega)
  · rw [biweeklyLoop_eq, stableSortInt_of_pairwise _ (arithSpec_pairwise _ _ _ (by omega))]
    exact arithSpec_pairwise _ _ _ (by omega)
  · rw [monthlyLoop_eq_spec, stableSortInt_of_pairwise _ (monthlySpec_sorted _ _)]
    exact monthlySpec_sorted _ _
  · rw [stableSortInt_of_pairwise _ (yearlyLoop_sorted _ _)]
    exact yearlyLoop_sorted _ _
  · rw [stableSortInt_of_pairwise _ (List.pairwise_singleton _ _)]
    exact List.pairwise_singleton _ _


theorem getRecurringDates_yearly (now : Int) (s : DateInput) (e : Int) :
    getRecurringDates now s "YEARLY" e = yearlyLoop e (ensureValidDate now s) := by
  unfold getRecurringDates
  simp only []
  rw [if_neg (by decide), if_neg (by decide), if_neg (by decide), if_neg (by decide),
    if_pos (by decide)]
  exact stableSortInt_of_pairwise _ (yearlyLoop_sorted _ _)

theorem getRecurringDatesQC1_biweekly (now : Int) (s : DateInput) (e : Int) :
    getRecurringDatesQC1 now s (some "BIWEEKLY") e = arithSpec 14 (ensureValidDate now s) e := by
  unfold getRecurringDatesQC1
  simp only []
  rw [if_pos (by decide), biweeklyLoopChk_eq _ _ _ (le_refl _), biweeklyLoop_eq]
  exact stableSortInt_of_pairwise _ (arithSpec_pairwise _ _ _ (by omega))

theorem getRecurringDatesQC2_biweekly (now : Int) (s : DateInput) (e : Int) :
    getRecurringDatesQC2 now s (some "BIWEEKLY") e = arithSpec 14 (ensureValidDate now s) e := by
  unfold getRecurringDatesQC2
  simp only []
  rw [if_pos (by decide), biweeklyLoopNorm_eq _ _ _ (le_refl _), biweeklyLoop_eq]
  exact stableSortInt_of_pairwise _ (arithSpec_pairwise _ _ _ (by omega))

theorem getRecurringDatesQC1_monthly (now : Int) (s : DateInput) (e : Int) :
    getRecurringDatesQC1 now s (some "MONTHLY") e = monthlySpec (ensureValidDate now s) e := by
  unfold getRecurringDatesQC1
  simp only []
  rw [if_neg (by decide), if_pos (by decide), monthlyLoop_eq_spec]
  exact stableSortInt_of_pairwise _ (monthlySpec_sorted _ _)

theorem getRecurringDatesQC2_monthly (now : Int) (s : DateInput) (e : Int) :
    getRecurringDatesQC2 now s (some "MONTHLY") e = monthlySpec (ensureValidDate now s) e := by
  unfold getRecurringDatesQC2
  simp only []
  rw [if_neg (by decide), if_pos (by decide), monthlyLoop_eq_spec]
  exact stableSortInt_of_pairwise _ (monthlySpec_sorted _ _)

theorem getRecurringDatesQC1_yearly (now : Int) (s : DateInput) (e : Int) :
    getRecurringDatesQC1 now s (some "YEARLY") e = yearlyLoop e (ensureValidDate now s) := by
  unfold getRecurringDatesQC1
  simp only []
  rw [if_neg (by decide), if_neg (by decide), if_pos (by decide),
    yearlyLoopChk_eq _ _ _ (le_refl _)]
  exact stableSortInt_of_pairwise _ (yearlyLoop_sorted _ _)

theorem getRecurringDatesQC2_yearly (now : Int) (s : DateInput) (e : Int) :
    getRecurringDatesQC2 now s (some "YEARLY") e = yearlyLoop e (ensureValidDate now s) := by
  unfold getRecurringDatesQC2
  simp only []
  rw [if_neg (by decide), if_neg (by decide), if_pos (by decide),
    yearlyLoopNorm_eq _ _ _ (le_refl _)]
  exact stableSortInt_of_pairwise _ (yearlyLoop_sorted _ _)

theorem getRecurringDatesQC1_none (now : Int) (s : DateInput) (e : Int) :
    getRecurringDatesQC1 now s none e = [ensureValidDate now s] := by
  unfold getRecurringDatesQC1
  simp only []
  rw [if_neg (by decide), if_neg (by decide), if_neg (by decide)]
  rfl

theorem getRecurringDatesQC2_none (now : Int) (s : DateInput) (e : Int) :
    getRecurringDatesQC2 now s none e = [ensureValidDate now s] := by
  unfold getRecurringDatesQC2
  simp only []
  rw [if_neg (by decide), if_neg (by decide), if_neg (by decide), renormalize_eq]
  rfl

/-! ## Claim theorems for the recurrence expander -/

/-- **C1.** For every anchor date and window end, MONTHLY expansion
preserves the anchor's day-of-month clamped to
`min(anchorDay, daysInTargetMonth)`, stepping one month at a time from the
first day of the anchor's month and emitting only candidate dates within
`[anchorDate, windowEnd]` inclusive (this is exactly `monthlySpec`); in
particular, an anchor of Jan 31 expanded through April yields
Jan 31, Feb 28 (29 in leap years), Mar 31, Apr 30. -/
theorem claim_C1_monthly_clamping :
    (∀ now s e, getRecurringDates now s "MONTHLY" e
      = monthlySpec (ensureValidDate now s) e) ∧
    (getRecurringDates 0 (.valid (toDayNumber ⟨2025, 1, 31⟩)) "MONTHLY"
        (toDayNumber ⟨2025, 4, 30⟩)).map fromDayNumber =
      [⟨2025, 1, 31⟩, ⟨2025, 2, 28⟩, ⟨2025, 3, 31⟩, ⟨2025, 4, 30⟩] ∧
    (getRecurringDates 0 (.valid (toDayNumber ⟨2024, 1, 31⟩)) "MONTHLY"
        (toDayNumber ⟨2024, 4, 30⟩)).map fromDayNumber =
      [⟨2024, 1, 31⟩, ⟨2024, 2, 29⟩, ⟨2024, 3, 31⟩, ⟨2024, 4, 30⟩] := by
  refine ⟨getRecurringDates_monthly, ?_, ?_⟩ <;>
    rw [getRecurringDates_monthly] <;> decide

/-- **C7.** BIWEEKLY expansion emits `anchor`, `anchor+14d`, `anchor+28d`, …
while the cursor is ≤ `windowEnd`, by pure day arithmetic; for anchor
2025-01-01 and window end 2025-02-01 the result is exactly
`[2025-01-01, 2025-01-15, 2025-01-29]`. -/
theorem claim_C7_biweekly_spacing :
    (∀ now s e, getRecurringDates now s "BIWEEKLY" e
      = arithSpec 14 (ensureValidDate now s) e) ∧
    (getRecurringDates 0 (.valid (toDayNumber ⟨2025, 1, 1⟩)) "BIWEEKLY"
        (toDayNumber ⟨2025, 2, 1⟩)).map fromDayNumber =
      [⟨2025, 1, 1⟩, ⟨2025, 1, 15⟩, ⟨2025, 1, 29⟩] := by
  refine ⟨getRecurringDates_biweekly, ?_⟩
  rw [getRecurringDates_biweekly]
  decide

/-- **C10.** The expander dispatches on the uppercased frequency string
(so matching is case-insensitive), and additionally supports DAILY
(step 1 day) and WEEKLY (step 7 days) while the cursor is ≤ the window
end. -/
theorem claim_C10_daily_weekly_case_insensitive :
    (∀ now s f g e, upper f = upper g →
      getRecurringDates now s f e = getRecurringDates now s g e) ∧
    (∀ now s e, getRecurringDates now s "DAILY" e
      = arithSpec 1 (ensureValidDate now s) e) ∧
    (∀ now s e, getRecurringDates now s "WEEKLY" e
      = arithSpec 7 (ensureValidDate now s) e) := by
  refine ⟨?_, getRecurringDates_daily, getRecurringDates_weekly⟩
  intro now s f g e h
  unfold getRecurringDates
  rw [h]

/-- Witness for C10: `"monthly"` and `"MONTHLY"` dispatch identically. -/
theorem claim_C10_witness :
    upper "monthly" = upper "MONTHLY" ∧
    getRecurringDates 0 (.valid 0) "monthly" 40
      = getRecurringDates 0 (.valid 0) "MONTHLY" 40 :=
  ⟨by decide, claim_C10_daily_weekly_case_insensitive.1 0 (.valid 0)
    "monthly" "MONTHLY" 40 (by decide)⟩

/-- Counterexample to **C6** as stated: `DAILY` lies outside the
specification's declared frequency enumeration
(ONCE/MONTHLY/YEARLY/BIWEEKLY), yet the utils copy expands it to one date
per day — two occurrences over a two-day window, not exactly one. -/
theorem claim_C6_counterexample :
    (getRecurringDates 0 (.valid (toDayNumber ⟨2025, 1, 1⟩)) "DAILY"
      (toDayNumber ⟨2025, 1, 2⟩)).length = 2 := by
  rw [getRecurringDates_daily]
  decide

/-- **C6 (amended).** ONCE yields exactly one occurrence equal to the anchor
date regardless of window size, in all three copies; any frequency whose
uppercased form is handled by none of a copy's dispatch cases — in
particular `TWICE_MONTHLY` — also yields exactly the anchor date.  (DAILY
and WEEKLY are excluded for the utils copy, which expands them.) -/
theorem claim_C6_once_unknown_single :
    (∀ now a e,
      getRecurringDates now (.valid a) "ONCE" e = [a] ∧
      getRecurringDatesQC1 now (.valid a) (some "ONCE") e = [a] ∧
      getRecurringDatesQC2 now (.valid a) (some "ONCE") e = [a] ∧
      getRecurringDatesQC1 now (.valid a) none e = [a] ∧
      getRecurringDatesQC2 now (.valid a) none e = [a]) ∧
    (∀ now a f e, upper f ≠ "DAILY".data → upper f ≠ "WEEKLY".data →
      upper f ≠ "BIWEEKLY".data → upper f ≠ "MONTHLY".data →
      upper f ≠ "YEARLY".data →
      getRecurringDates now (.valid a) f e = [a] ∧
      getRecurringDatesQC1 now (.valid a) (some f) e = [a] ∧
      getRecurringDatesQC2 now (.valid a) (some f) e = [a]) := by
  constructor
  · intro now a e
    exact ⟨getRecurringDates_once now (.valid a) e,
      getRecurringDatesQC1_unknown now (.valid a) "ONCE" e (by decide) (by decide) (by decide),
      getRecurringDatesQC2_unknown now (.valid a) "ONCE" e (by decide) (by decide) (by decide),
      getRecurringDatesQC1_none now (.valid a) e,
      getRecurringDatesQC2_none now (.valid a) e⟩
  · intro now a f e h1 h2 h3 h4 h5
    exact ⟨getRecurringDates_unknown now (.valid a) f e h1 h2 h3 h4 h5,
      getRecurringDatesQC1_unknown now (.valid a) f e h3 h4 h5,
      getRecurringDatesQC2_unknown now (.valid a) f e h3 h4 h5⟩

/-- Witness for the amended C6 at frequency `TWICE_MONTHLY`. -/
theorem claim_C6_witness :
    upper "TWICE_MONTHLY" ≠ "DAILY".data ∧
    getRecurringDates 0 (.valid 7) "TWICE_MONTHLY" 500 = [7] :=
  ⟨by decide, (claim_C6_once_unknown_single.2 0 7 "TWICE_MONTHLY" 500
    (by decide) (by decide) (by decide) (by decide) (by decide)).1⟩

/-- Counterexample to **C8** as stated: a malformed anchor date does not
degrade to a single-occurrence or empty result — the expander substitutes
the current date and expands the frequency in full (here three monthly
occurrences from an invalid anchor). -/
theorem claim_C8_counterexample :
    1 < (getRecurringDates (toDayNumber ⟨2025, 10, 11⟩) .invalid "MONTHLY"
      (toDayNumber ⟨2025, 12, 31⟩)).length := by
  rw [getRecurringDates_monthly]
  decide

/-- **C8 (amended).** For every input — absent or malformed anchors and
unknown frequencies included — expansion terminates (the loops are
well-founded by construction) and returns a list that is sorted strictly
ascending (hence duplicate-free); absent and malformed anchors fall back
to the current date and expansion proceeds with the given frequency;
unknown frequencies yield the single anchor/fallback date; the default
window bound used when no window end is supplied is December 31, 2030. -/
theorem claim_C8_sorted_nodup_fallback :
    (∀ now s f e, (getRecurringDates now s f e).Pairwise (· < ·)) ∧
    (∀ now f e, getRecurringDates now .invalid f e
        = getRecurringDates now (.valid now) f e ∧
      getRecurringDates now .absent f e
        = getRecurringDates now (.valid now) f e) ∧
    (∀ now s f e, upper f ≠ "DAILY".data → upper f ≠ "WEEKLY".data →
      upper f ≠ "BIWEEKLY".data → upper f ≠ "MONTHLY".data →
      upper f ≠ "YEARLY".data →
      getRecurringDates now s f e = [ensureValidDate now s]) ∧
    defaultEndDay = toDayNumber ⟨2030, 12, 31⟩ := by
  refine ⟨getRecurringDates_pairwise, ?_, getRecurringDates_unknown, rfl⟩
  intro now f e
  exact ⟨rfl, rfl⟩

/-- Witness for the amended C8. -/
theorem claim_C8_witness :
    (getRecurringDates 0 (.valid 3) "WEEKLY" 20).Pairwise (· < ·) ∧
    upper "quarterly" ≠ "DAILY".data ∧
    getRecurringDates 0 (.valid 3) "quarterly" 20 = [3] :=
  ⟨claim_C8_sorted_nodup_fallback.1 0 (.valid 3) "WEEKLY" 20,
   by decide,
   claim_C8_sorted_nodup_fallback.2.2.1 0 (.valid 3) "quarterly" 20
     (by decide) (by decide) (by decide) (by decide) (by decide)⟩

/-- **C9.** The three copies of `getRecurringDates` (utils module and the
two in `queryClient.ts`) agree on every valid anchor date, window end, and
each of the frequencies ONCE, BIWEEKLY, MONTHLY, YEARLY. -/
theorem claim_C9_three_copies_agree :
    ∀ now a e,
      (getRecurringDates now (.valid a) "ONCE" e
          = getRecurringDatesQC1 now (.valid a) (some "ONCE") e ∧
        getRecurringDatesQC1 now (.valid a) (some "ONCE") e
          = getRecurringDatesQC2 now (.valid a) (some "ONCE") e) ∧
      (getRecurringDates now (.valid a) "BIWEEKLY" e
          = getRecurringDatesQC1 now (.valid a) (some "BIWEEKLY") e ∧
        getRecurringDatesQC1 now (.valid a) (some "BIWEEKLY") e
          = getRecurringDatesQC2 now (.valid a) (some "BIWEEKLY") e) ∧
      (getRecurringDates now (.valid a) "MONTHLY" e
          = getRecurringDatesQC1 now (.valid a) (some "MONTHLY") e ∧
        getRecurringDatesQC1 now (.valid a) (some "MONTHLY") e
          = getRecurringDatesQC2 now (.valid a) (some "MONTHLY") e) ∧
      (getRecurringDates now (.valid a) "YEARLY" e
          = getRecurringDatesQC1 now (.valid a) (some "YEARLY") e ∧
        getRecurringDatesQC1 now (.valid a) (some "YEARLY") e
          = getRecurringDatesQC2 now (.valid a) (some "YEARLY") e) := by
  intro now a e
  refine ⟨⟨?_, ?_⟩, ⟨?_, ?_⟩, ⟨?_, ?_⟩, ⟨?_, ?_⟩⟩
  · rw [getRecurringDates_once,
      getRecurringDatesQC1_unknown now (.valid a) "ONCE" e (by decide) (by decide) (by decide)]
  · rw [getRecurringDatesQC1_unknown now (.valid a) "ONCE" e (by decide) (by decide) (by decide),
      getRecurringDatesQC2_unknown now (.valid a) "ONCE" e (by decide) (by decide) (by decide)]
  · rw [getRecurringDates_biweekly, getRecurringDatesQC1_biweekly]
  · rw [getRecurringDatesQC1_biweekly, getRecurringDatesQC2_biweekly]
  · rw [getRecurringDates_monthly, getRecurringDatesQC1_monthly]
  · rw [getRecurringDatesQC1_monthly, getRecurringDatesQC2_monthly]
  · rw [getRecurringDates_yearly, getRecurringDatesQC1_yearly]
  · rw [getRecurringDatesQC1_yearly, getRecurringDatesQC2_yearly]


/-! ## The period aggregator (`useReportData` hook; the same logic is
inlined in `ReportModal` of `Reports.tsx`)

Timestamps are integer milliseconds since the epoch; expander day numbers
map to timestamps via `noonTs` (the noon-UTC normalization). -/

/-- UTC calendar day containing a millisecond timestamp. -/
def dayOfTs (t : Int) : Int := t / 86400000

/-- Noon-UTC timestamp of a day number. -/
def noonTs (d : Int) : Int := d * 86400000 + 43200000

/-- `date-fns startOfMonth`: first instant of the month containing `t`. -/
def startOfMonthTs (t : Int) : Int :=
  toDayNumber ⟨(fromDayNumber (dayOfTs t)).year, (fromDayNumber (dayOfTs t)).month, 1⟩
    * 86400000

/-- `date-fns endOfMonth`: last millisecond of the month containing `t`. -/
def endOfMonthTs (t : Int) : Int :=
  toDayNumber ⟨(fromDayNumber (dayOfTs t)).year, (fromDayNumber (dayOfTs t)).month,
      daysInMonth (fromDayNumber (dayOfTs t)).year (fromDayNumber (dayOfTs t)).month⟩
    * 86400000 + 86399999

/-- `date-fns isSameMonth`. -/
def isSameMonthTs (t u : Int) : Bool :=
  decide ((fromDayNumber (dayOfTs t)).year = (fromDayNumber (dayOfTs u)).year ∧
    (fromDayNumber (dayOfTs t)).month = (fromDayNumber (dayOfTs u)).month)

/-- A reporting interval (millisecond timestamps, inclusive ends).
`stop` models the source's `interval.end` (`end` is reserved in Lean). -/
structure Interval where
  start : Int
  stop  : Int
deriving DecidableEq, Repr

/-- `date-fns` v4 `isWithinInterval`: sorts the two bounds, then tests
inclusively. -/
def isWithinInterval (t : Int) (iv : Interval) : Bool :=
  decide (min iv.start iv.stop ≤ t ∧ t ≤ max iv.start iv.stop)

/-- An expense row as the hook receives it (`amount` is the decimal string,
modelled as an exact rational). -/
structure Expense where
  id : String
  date : DateInput
  amount : ℚ
  frequency : String
  categoryId : String
deriving DecidableEq, Repr

/-- An income row. -/
structure Income where
  id : String
  date : DateInput
  amount : ℚ
  frequency : String
deriving DecidableEq, Repr

/-- A category row. -/
structure Category where
  id : String
  name : String
deriving DecidableEq, Repr

/-- One derived occurrence `{ date, isPending, amount }`. -/
structure Occurrence where
  date : Int
  isPending : Bool
  amount : ℚ
deriving DecidableEq, Repr

/-- A per-expense report line (`{...expense, amount, dates, incurredAmount,
pendingAmount, totalAmount}`). -/
structure ProcessedExpense where
  expense : Expense
  amount : ℚ
  dates : List Occurrence
  incurredAmount : ℚ
  pendingAmount : ℚ
  totalAmount : ℚ
deriving DecidableEq, Repr

/-- A per-income report line. -/
structure ProcessedIncome where
  income : Income
  amount : ℚ
  dates : List Occurrence
  incurredAmount : ℚ
  pendingAmount : ℚ
  totalAmount : ℚ
deriving DecidableEq, Repr

/-- One category group of the grouped view. -/
structure CategoryGroup where
  category : Category
  expenses : List ProcessedExpense
  totalAmount : ℚ
  incurredAmount : ℚ
  pendingAmount : ℚ
deriving DecidableEq, Repr

/-- The hook's return value. -/
structure ReportData where
  processedIncomes : List ProcessedIncome
  processedExpenses : List ProcessedExpense
  totalIncurredIncomes : ℚ
  totalPendingIncomes : ℚ
  totalIncomes : ℚ
  totalIncurredExpenses : ℚ
  totalPendingExpenses : ℚ
  totalExpenses : ℚ
  groupedExpenses : List CategoryGroup
deriving DecidableEq, Repr

/-- The reporting interval the hook derives from its `date`/`endDate`
arguments: snapped to full calendar-month bounds when both fall in the same
month (`isMonthlyView`), otherwise taken as given. -/
def intervalOf (dateTs endTs : Int) : Interval :=
  if isSameMonthTs dateTs endTs
    then ⟨startOfMonthTs dateTs, endOfMonthTs dateTs⟩
    else ⟨dateTs, endTs⟩

/-- Occurrences of one expense: expand from the record's anchor (absent or
invalid anchors fall back to the current date, as in both `ensureValidDate`
layers), filter to the interval, classify against the generation instant
`gen` (`isPending = !isBefore(d, generationDate)`). -/
def expenseDates (gen : Int) (iv : Interval) (e : Expense) : List Occurrence :=
  ((getRecurringDates (dayOfTs gen) e.date e.frequency (dayOfTs iv.stop)).filter
      (fun d => isWithinInterval (noonTs d) iv)).map
    (fun d => ⟨d, !decide (noonTs d < gen), e.amount⟩)

/-- Occurrences of one income. -/
def incomeDates (gen : Int) (iv : Interval) (i : Income) : List Occurrence :=
  ((getRecurringDates (dayOfTs gen) i.date i.frequency (dayOfTs iv.stop)).filter
      (fun d => isWithinInterval (noonTs d) iv)).map
    (fun d => ⟨d, !decide (noonTs d < gen), i.amount⟩)

/-- The per-expense record built in `processedExpenses`. -/
def processExpense (gen : Int) (iv : Interval) (e : Expense) : ProcessedExpense :=
  let dates := expenseDates gen iv e
  let incurredAmount := (dates.map (fun o => if o.isPending then 0 else o.amount)).sum
  let pendingAmount := (dates.map (fun o => if o.isPending then o.amount else 0)).sum
  ⟨e, e.amount, dates, incurredAmount, pendingAmount, incurredAmount + pendingAmount⟩

/-- The per-income record built in `processedIncomes`. -/
def processIncome (gen : Int) (iv : Interval) (i : Income) : ProcessedIncome :=
  let dates := incomeDates gen iv i
  let incurredAmount := (dates.map (fun o => if o.isPending then 0 else o.amount)).sum
  let pendingAmount := (dates.map (fun o => if o.isPending then o.amount else 0)).sum
  ⟨i, i.amount, dates, incurredAmount, pendingAmount, incurredAmount + pendingAmount⟩

/-- The expense pre-filter selected by `filterType`. -/
def expenseSelected (filterType selectedExpenseId selectedCategoryId : String)
    (e : Expense) : Bool :=
  if filterType == "single-expense" then e.id == selectedExpenseId
  else if filterType == "single-category" then e.categoryId == selectedCategoryId
  else true

/-- `processedExpenses`: pre-filter, process, drop zero-occurrence rows. -/
def processedExpensesOf (gen : Int) (iv : Interval)
    (filterType selectedExpenseId selectedCategoryId : String)
    (expenses : List Expense) : List ProcessedExpense :=
  ((expenses.filter (expenseSelected filterType selectedExpenseId selectedCategoryId)).map
      (processExpense gen iv)).filter
    (fun p => decide (0 < p.dates.length))

/-- `processedIncomes` (only for the monthly-budget view or the all-incomes
report). -/
def processedIncomesOf (gen : Int) (iv : Interval) (filterType : String)
    (isMonthlyBudget : Bool) (incomes : List Income) : List ProcessedIncome :=
  if isMonthlyBudget || filterType == "all-incomes" then
    ((incomes.map (processIncome gen iv)).filter (fun p => decide (0 < p.dates.length)))
  else []

/-- The grouped-by-category view (`filterType = "all-categories"`):
per-category rollups, empty categories dropped, sorted descending by
`totalAmount` (JS `sort` is stable; the comparator is
`b.totalAmount - a.totalAmount`). -/
def groupedExpensesOf (filterType : String) (categories : List Category)
    (pes : List ProcessedExpense) : List CategoryGroup :=
  if filterType == "all-categories" then
    stableSort (fun a b => b.totalAmount ≤ a.totalAmount)
      ((categories.map (fun c =>
        let ce := pes.filter (fun p => p.expense.categoryId == c.id)
        CategoryGroup.mk c ce ((ce.map (·.totalAmount)).sum)
          ((ce.map (·.incurredAmount)).sum) ((ce.map (·.pendingAmount)).sum))).filter
        (fun g => decide (0 < g.expenses.length)))
  else []

/-- The `useReportData` hook.  `gen` is the generation instant
(`new Date()` in the source, taken as an explicit input so the function is
a pure function of its arguments). -/
def useReportData (expenses : List Expense) (incomes : List Income)
    (dateTs endTs : Int) (filterType : String)
    (selectedExpenseId selectedCategoryId : String) (isMonthlyBudget : Bool)
    (categories : List Category) (gen : Int) : ReportData :=
  let interval := intervalOf dateTs endTs
  let processedIncomes := processedIncomesOf gen interval filterType isMonthlyBudget incomes
  let processedExpenses :=
    processedExpensesOf gen interval filterType selectedExpenseId selectedCategoryId expenses
  let totalIncurredIncomes := (processedIncomes.map (·.incurredAmount)).sum
  let totalPendingIncomes := (processedIncomes.map (·.pendingAmount)).sum
  let totalIncurredExpenses := (processedExpenses.map (·.incurredAmount)).sum
  let totalPendingExpenses := (processedExpenses.map (·.pendingAmount)).sum
  ⟨processedIncomes, processedExpenses,
    totalIncurredIncomes, totalPendingIncomes, totalIncurredIncomes + totalPendingIncomes,
    totalIncurredExpenses, totalPendingExpenses, totalIncurredExpenses + totalPendingExpenses,
    groupedExpensesOf filterType categories processedExpenses⟩

/-! ## Lemmas about the aggregator -/

theorem processedExpensesOf_shape (gen : Int) (iv : Interval)
    (ft sid scid : String) (es : List Expense) :
    ∀ p ∈ processedExpensesOf gen iv ft sid scid es,
      ∃ e ∈ es, p = processExpense gen iv e ∧ 0 < p.dates.length := by
  intro p hp
  unfold processedExpensesOf at hp
  rw [List.mem_filter] at hp
  obtain ⟨hp1, hp2⟩ := hp
  rw [List.mem_map] at hp1
  obtain ⟨e, he, rfl⟩ := hp1
  exact ⟨e, (List.mem_filter.mp he).1, rfl, by simpa using hp2⟩

theorem expenseDates_pending (gen : Int) (iv : Interval) (e : Expense) :
    ∀ o ∈ expenseDates gen iv e,
      o.isPending = !decide (noonTs o.date < gen) := by
  intro o ho
  unfold expenseDates at ho
  rw [List.mem_map] at ho
  obtain ⟨d, _, rfl⟩ := ho
  rfl

/-- Sum of a map distributes over pointwise addition. -/
theorem sum_map_add {α : Type} (l : List α) (f g : α → ℚ) :
    (l.map (fun x => f x + g x)).sum = (l.map f).sum + (l.map g).sum := by
  induction l with
  | nil => simp
  | cons x t ih => simp [ih]; ring

/-- Dropping elements mapped to zero does not change a sum. -/
theorem sum_filter_of_zero {α : Type} (l : List α) (p : α → Bool) (f : α → ℚ)
    (h : ∀ x ∈ l, p x = false → f x = 0) :
    ((l.filter p).map f).sum = (l.map f).sum := by
  induction l with
  | nil => simp
  | cons x t ih =>
    have ht : ∀ y ∈ t, p y = false → f y = 0 := fun y hy => h y (List.mem_cons_of_mem x hy)
    rcases hx : p x with _ | _
    · rw [List.filter_cons_of_neg (by simp [hx]), ih ht, List.map_cons, List.sum_cons,
        h x (List.mem_cons_self x t) hx, zero_add]
    · rw [List.filter_cons_of_pos (by simp [hx]), List.map_cons, List.sum_cons,
        List.map_cons, List.sum_cons, ih ht]

/-- Summing an indicator over a duplicate-free key list hits the key once. -/
theorem sum_indicator (keys : List String) (v : String) (c : ℚ)
    (hnd : keys.Nodup) (hv : v ∈ keys) :
    (keys.map (fun k => if v == k then c else 0)).sum = c := by
  induction keys with
  | nil => simp at hv
  | cons k t ih =>
    rcases hnd with _ | ⟨hk, ht⟩
    rcases List.mem_cons.mp hv with rfl | hvt
    · rw [List.map_cons, List.sum_cons, if_pos (by simp)]
      have : ∀ x ∈ t, (fun j => if v == j then c else 0) x = (fun _ => (0 : ℚ)) x := by
        intro x hx
        simp only []
        rw [if_neg]
        simp only [beq_iff_eq]
        intro hvx
        exact hk x hx hvx
      rw [List.map_congr_left this]
      simp
    · rw [List.map_cons, List.sum_cons, if_neg (by
        simp only [beq_iff_eq]
        intro hvk
        exact hk v hvt hvk.symm), zero_add]
      exact ih ht hvt

/-- Grouping by a duplicate-free key list that covers every element
partitions the sum. -/
theorem sum_grouped {α : Type} (keys : List String) (l : List α)
    (key : α → String) (f : α → ℚ) (hnd : keys.Nodup)
    (hcov : ∀ x ∈ l, key x ∈ keys) :
    (keys.map (fun k => ((l.filter (fun x => key x == k)).map f).sum)).sum
      = (l.map f).sum := by
  induction l with
  | nil => simp
  | cons x t ih =>
    have hsplit : ∀ k, ((x :: t).filter (fun y => key y == k)).map f
        = (if key x == k then [f x] else []) ++ (t.filter (fun y => key y == k)).map f := by
      intro k
      rw [List.filter_cons]
      rcases hk : (key x == k) with _ | _
      · simp [hk]
      · simp [hk]
    have hmap : ∀ k, (((x :: t).filter (fun y => key y == k)).map f).sum
        = (if key x == k then f x else 0) + ((t.filter (fun y => key y == k)).map f).sum := by
      intro k
      rw [hsplit k, List.sum_append]
      rcases hk : (key x == k) with _ | _
      · simp [hk]
      · simp [hk]
    calc (keys.map (fun k => (((x :: t).filter (fun y => key y == k)).map f).sum)).sum
        = (keys.map (fun k => (if key x == k then f x else 0)
            + ((t.filter (fun y => key y == k)).map f).sum)).sum := by
          exact congrArg _ (List.map_congr_left fun k _ => hmap k)
      _ = (keys.map (fun k => if key x == k then f x else 0)).sum
            + (keys.map (fun k => ((t.filter (fun y => key y == k)).map f).sum)).sum := by
          exact sum_map_add keys _ _
      _ = f x + (t.map f).sum := by
          rw [sum_indicator keys (key x) (f x) hnd (hcov x (List.mem_cons_self x t)),
            ih fun y hy => hcov y (List.mem_cons_of_mem x hy)]
      _ = ((x :: t).map f).sum := by
          rw [List.map_cons, List.sum_cons]

theorem incomeDates_pending (gen : Int) (iv : Interval) (i : Income) :
    ∀ o ∈ incomeDates gen iv i,
      o.isPending = !decide (noonTs o.date < gen) := by
  intro o ho
  unfold incomeDates at ho
  rw [List.mem_map] at ho
  obtain ⟨d, _, rfl⟩ := ho
  rfl

theorem processedIncomesOf_shape (gen : Int) (iv : Interval) (ft : String)
    (b : Bool) (incomes : List Income) :
    ∀ p ∈ processedIncomesOf gen iv ft b incomes,
      ∃ i ∈ incomes, p = processIncome gen iv i ∧ 0 < p.dates.length := by
  intro p hp
  unfold processedIncomesOf at hp
  split at hp
  · rw [List.mem_filter] at hp
    obtain ⟨hp1, hp2⟩ := hp
    rw [List.mem_map] at hp1
    obtain ⟨i, hi, rfl⟩ := hp1
    exact ⟨i, hi, rfl, by simpa using hp2⟩
  · simp at hp

theorem useReportData_processedExpenses (es : List Expense) (is : List Income)
    (dateTs endTs : Int) (ft sid scid : String) (b : Bool)
    (cats : List Category) (gen : Int) :
    (useReportData es is dateTs endTs ft sid scid b cats gen).processedExpenses
      = processedExpensesOf gen (intervalOf dateTs endTs) ft sid scid es := rfl

theorem useReportData_processedIncomes (es : List Expense) (is : List Income)
    (dateTs endTs : Int) (ft sid scid : String) (b : Bool)
    (cats : List Category) (gen : Int) :
    (useReportData es is dateTs endTs ft sid scid b cats gen).processedIncomes
      = processedIncomesOf gen (intervalOf dateTs endTs) ft b is := rfl

theorem useReportData_totalExpenses (es : List Expense) (is : List Income)
    (dateTs endTs : Int) (ft sid scid : String) (b : Bool)
    (cats : List Category) (gen : Int) :
    (useReportData es is dateTs endTs ft sid scid b cats gen).totalExpenses
      = ((processedExpensesOf gen (intervalOf dateTs endTs) ft sid scid es).map
          (fun p => p.incurredAmount)).sum
        + ((processedExpensesOf gen (intervalOf dateTs endTs) ft sid scid es).map
          (fun p => p.pendingAmount)).sum := rfl

theorem useReportData_groupedExpenses (es : List Expense) (is : List Income)
    (dateTs endTs : Int) (ft sid scid : String) (b : Bool)
    (cats : List Category) (gen : Int) :
    (useReportData es is dateTs endTs ft sid scid b cats gen).groupedExpenses
      = groupedExpensesOf ft cats
          (processedExpensesOf gen (intervalOf dateTs endTs) ft sid scid es) := rfl

/-- C2, amended general part: every retained occurrence satisfies
`isPending = !(occurrenceInstant < generationInstant)`. -/
theorem claim_C2_pending_boundary (es : List Expense) (is : List Income)
    (dateTs endTs : Int) (ft sid scid : String) (b : Bool)
    (cats : List Category) (gen : Int) :
    (∀ p ∈ (useReportData es is dateTs endTs ft sid scid b cats gen).processedExpenses,
      ∀ o ∈ p.dates, o.isPending = !decide (noonTs o.date < gen)) ∧
    (∀ p ∈ (useReportData es is dateTs endTs ft sid scid b cats gen).processedIncomes,
      ∀ o ∈ p.dates, o.isPending = !decide (noonTs o.date < gen)) ∧
    (∀ p ∈ (useReportData es is dateTs endTs ft sid scid b cats gen).processedExpenses,
      ∀ o ∈ p.dates, o.date = dayOfTs gen →
        (o.isPending = true ↔ gen ≤ noonTs o.date)) := by
  have hexp : ∀ p ∈ (useReportData es is dateTs endTs ft sid scid b cats gen).processedExpenses,
      ∀ o ∈ p.dates, o.isPending = !decide (noonTs o.date < gen) := by
    intro p hp o ho
    rw [useReportData_processedExpenses] at hp
    obtain ⟨e, _, rfl, -⟩ := processedExpensesOf_shape _ _ _ _ _ _ p hp
    exact expenseDates_pending gen _ e o ho
  refine ⟨hexp, ?_, ?_⟩
  · intro p hp o ho
    rw [useReportData_processedIncomes] at hp
    obtain ⟨i, _, rfl, -⟩ := processedIncomesOf_shape _ _ _ _ _ p hp
    exact incomeDates_pending gen _ i o ho
  · intro p hp o ho _
    rw [hexp p hp o ho]
    simp [not_lt]

/-- C2 counterexample to the original claim: an occurrence on the same
calendar day as the generation instant is classified incurred (not pending)
when the instant is after noon UTC of that day. -/
theorem claim_C2_counterexample :
    dayOfTs (noonTs 0 + 1) = dayOfTs (noonTs 0) ∧
    ((useReportData [⟨"e1", DateInput.valid 0, 1, "ONCE", "c1"⟩] []
        0 (86400000 * 20) "all" "" "" false [] (noonTs 0 + 1)).processedExpenses.map
      (fun p => p.dates)) = [[⟨0, false, 1⟩]] := by
  constructor
  · decide
  · decide

/-- C2 witness: the general theorem applied at a concrete input. -/
theorem claim_C2_witness :
    (⟨0, false, (1 : ℚ)⟩ : Occurrence).isPending
      = !decide (noonTs 0 < noonTs 0 + 1) :=
  (claim_C2_pending_boundary [⟨"e1", DateInput.valid 0, 1, "ONCE", "c1"⟩] []
      0 (86400000 * 20) "all" "" "" false [] (noonTs 0 + 1)).1
    (processExpense (noonTs 0 + 1) (intervalOf 0 (86400000 * 20))
      ⟨"e1", DateInput.valid 0, 1, "ONCE", "c1"⟩)
    (by
      rw [useReportData_processedExpenses]
      unfold processedExpensesOf
      have h1 : List.filter (expenseSelected "all" "" "")
          [(⟨"e1", DateInput.valid 0, 1, "ONCE", "c1"⟩ : Expense)]
          = [⟨"e1", DateInput.valid 0, 1, "ONCE", "c1"⟩] := by decide
      rw [h1, List.map_cons, List.map_nil, List.filter_cons,
        if_pos (by decide), List.filter_nil]
      exact List.mem_cons_self _ _)
    ⟨0, false, 1⟩ (by decide)

/-- C3: the aggregator is a pure function of its inputs — two calls with
identical records, interval and generation instant give identical output. -/
theorem claim_C3_deterministic
    (es₁ es₂ : List Expense) (is₁ is₂ : List Income) (d₁ d₂ e₁ e₂ : Int)
    (ft₁ ft₂ sid₁ sid₂ scid₁ scid₂ : String) (b₁ b₂ : Bool)
    (cats₁ cats₂ : List Category) (gen₁ gen₂ : Int)
    (h : es₁ = es₂ ∧ is₁ = is₂ ∧ d₁ = d₂ ∧ e₁ = e₂ ∧ ft₁ = ft₂ ∧ sid₁ = sid₂
      ∧ scid₁ = scid₂ ∧ b₁ = b₂ ∧ cats₁ = cats₂ ∧ gen₁ = gen₂) :
    useReportData es₁ is₁ d₁ e₁ ft₁ sid₁ scid₁ b₁ cats₁ gen₁
      = useReportData es₂ is₂ d₂ e₂ ft₂ sid₂ scid₂ b₂ cats₂ gen₂ := by
  obtain ⟨rfl, rfl, rfl, rfl, rfl, rfl, rfl, rfl, rfl, rfl⟩ := h
  rfl

/-- C3 witness: the determinism theorem applied at a concrete input. -/
theorem claim_C3_witness :
    useReportData [⟨"e1", DateInput.valid 0, 1, "ONCE", "c1"⟩] []
        0 (86400000 * 20) "all" "" "" false [] (noonTs 0)
      = useReportData [⟨"e1", DateInput.valid 0, 1, "ONCE", "c1"⟩] []
        0 (86400000 * 20) "all" "" "" false [] (noonTs 0) :=
  claim_C3_deterministic _ _ _ _ _ _ _ _ _ _ _ _ _ _ _ _ _ _ _ _
    ⟨rfl, rfl, rfl, rfl, rfl, rfl, rfl, rfl, rfl, rfl⟩

theorem processedExpensesOf_drop (gen : Int) (iv : Interval)
    (ft sid scid : String) (es₁ es₂ : List Expense) (r : Expense)
    (h : expenseDates gen iv r = []) :
    processedExpensesOf gen iv ft sid scid (es₁ ++ r :: es₂)
      = processedExpensesOf gen iv ft sid scid (es₁ ++ es₂) := by
  unfold processedExpensesOf
  rw [List.filter_append, List.filter_append, List.filter_cons]
  rcases hsel : expenseSelected ft sid scid r with _ | _
  · rw [if_neg (by simp [hsel])]
  · rw [if_pos (by simp [hsel]), List.map_append, List.map_append, List.map_cons,
      List.filter_append, List.filter_append, List.filter_cons]
    rw [if_neg (by
      show ¬(decide (0 < (processExpense gen iv r).dates.length) = true)
      simp only [processExpense, h]
      decide)]

/-- C4: a record whose expanded occurrences filtered to the interval are
empty is invisible — removing it changes nothing — and every per-record
output line has a nonempty occurrence list. -/
theorem claim_C4_zero_occurrence_drop
    (es₁ es₂ : List Expense) (r : Expense) (is : List Income)
    (dateTs endTs : Int) (ft sid scid : String) (b : Bool)
    (cats : List Category) (gen : Int)
    (h : expenseDates gen (intervalOf dateTs endTs) r = []) :
    useReportData (es₁ ++ r :: es₂) is dateTs endTs ft sid scid b cats gen
      = useReportData (es₁ ++ es₂) is dateTs endTs ft sid scid b cats gen ∧
    (∀ p ∈ (useReportData (es₁ ++ r :: es₂) is dateTs endTs ft sid scid b cats
        gen).processedExpenses, 0 < p.dates.length) ∧
    (∀ p ∈ (useReportData (es₁ ++ r :: es₂) is dateTs endTs ft sid scid b cats
        gen).processedIncomes, 0 < p.dates.length) := by
  have hpe := processedExpensesOf_drop gen (intervalOf dateTs endTs) ft sid scid es₁ es₂ r h
  refine ⟨?_, ?_, ?_⟩
  · simp only [useReportData, hpe]
  · intro p hp
    rw [useReportData_processedExpenses] at hp
    obtain ⟨_, _, _, hlen⟩ := processedExpensesOf_shape _ _ _ _ _ _ p hp
    exact hlen
  · intro p hp
    rw [useReportData_processedIncomes] at hp
    obtain ⟨_, _, _, hlen⟩ := processedIncomesOf_shape _ _ _ _ _ p hp
    exact hlen

/-- C4 witness: a concrete out-of-window record is dropped. -/
theorem claim_C4_witness :
    expenseDates (noonTs 0) (intervalOf 0 (86400000 * 20))
        ⟨"r", DateInput.valid 5000, 7, "ONCE", "c9"⟩ = [] ∧
    useReportData ([] ++ ⟨"r", DateInput.valid 5000, 7, "ONCE", "c9"⟩ ::
          [⟨"e1", DateInput.valid 0, 1, "ONCE", "c1"⟩]) []
        0 (86400000 * 20) "all" "" "" false [] (noonTs 0)
      = useReportData ([] ++ [⟨"e1", DateInput.valid 0, 1, "ONCE", "c1"⟩]) []
        0 (86400000 * 20) "all" "" "" false [] (noonTs 0) :=
  ⟨by decide,
    (claim_C4_zero_occurrence_drop [] [⟨"e1", DateInput.valid 0, 1, "ONCE", "c1"⟩]
      ⟨"r", DateInput.valid 5000, 7, "ONCE", "c9"⟩ [] 0 (86400000 * 20)
      "all" "" "" false [] (noonTs 0) (by decide)).1⟩

theorem groupedExpensesOf_total (cats : List Category) (pes : List ProcessedExpense)
    (hnd : (cats.map (fun c => c.id)).Nodup)
    (hcov : ∀ p ∈ pes, p.expense.categoryId ∈ cats.map (fun c => c.id)) :
    ((groupedExpensesOf "all-categories" cats pes).map (fun g => g.totalAmount)).sum
      = (pes.map (fun p => p.totalAmount)).sum := by
  unfold groupedExpensesOf
  rw [if_pos (by decide)]
  rw [((stableSort_perm _ _).map (fun g : CategoryGroup => g.totalAmount)).sum_eq]
  rw [sum_filter_of_zero _ _ _ (by
    intro g hg hfalse
    rw [List.mem_map] at hg
    obtain ⟨c, _, rfl⟩ := hg
    simp only [decide_eq_false_iff_not, not_lt, Nat.le_zero, List.length_eq_zero] at hfalse
    simp only []
    rw [hfalse]
    simp)]
  rw [List.map_map]
  have hre : ((cats.map fun c => c.id).map (fun k =>
        ((pes.filter (fun p => p.expense.categoryId == k)).map
          (fun p => p.totalAmount)).sum)).sum
      = (pes.map (fun p => p.totalAmount)).sum :=
    sum_grouped (cats.map fun c => c.id) pes (fun p => p.expense.categoryId)
      (fun p => p.totalAmount) hnd hcov
  rw [List.map_map] at hre
  exact hre

theorem groupedExpensesOf_sorted (ft : String) (cats : List Category)
    (pes : List ProcessedExpense) :
    (groupedExpensesOf ft cats pes).Pairwise
      (fun a b => b.totalAmount ≤ a.totalAmount) := by
  unfold groupedExpensesOf
  split
  · refine List.Pairwise.imp ?_ (stableSort_sorted _ ?_ ?_ _)
    · intro a b hab
      exact of_decide_eq_true hab
    · intro a b hab
      rw [decide_eq_false_iff_not] at hab
      exact decide_eq_true (le_of_not_le hab)
    · intro a b c hab hbc
      rw [decide_eq_true_eq] at hab hbc
      exact decide_eq_true (le_trans hbc hab)
  · simp

theorem groupedExpensesOf_nonempty (ft : String) (cats : List Category)
    (pes : List ProcessedExpense) :
    ∀ g ∈ groupedExpensesOf ft cats pes, 0 < g.expenses.length := by
  intro g hg
  unfold groupedExpensesOf at hg
  split at hg
  · have hmem := (stableSort_perm _ _).mem_iff.mp hg
    have := (List.mem_filter.mp hmem).2
    simpa using this
  · simp at hg

theorem processedExpensesOf_total_split (gen : Int) (iv : Interval)
    (ft sid scid : String) (es : List Expense) :
    ((processedExpensesOf gen iv ft sid scid es).map (fun p => p.totalAmount)).sum
      = ((processedExpensesOf gen iv ft sid scid es).map
          (fun p => p.incurredAmount)).sum
        + ((processedExpensesOf gen iv ft sid scid es).map
          (fun p => p.pendingAmount)).sum := by
  rw [← sum_map_add]
  refine congrArg List.sum (List.map_congr_left ?_)
  intro p hp
  obtain ⟨e, _, rfl, -⟩ := processedExpensesOf_shape _ _ _ _ _ _ p hp
  rfl

/-- C5: with duplicate-free category ids covering every expense, grouped
totals sum to the grand expense total; groups are sorted descending by
total and empty categories are dropped. -/
theorem claim_C5_category_rollup (es : List Expense) (is : List Income)
    (dateTs endTs : Int) (sid scid : String) (b : Bool)
    (cats : List Category) (gen : Int)
    (hnd : (cats.map (fun c => c.id)).Nodup)
    (hcov : ∀ e ∈ es, e.categoryId ∈ cats.map (fun c => c.id)) :
    (((useReportData es is dateTs endTs "all-categories" sid scid b cats
          gen).groupedExpenses.map (fun g => g.totalAmount)).sum
        = (useReportData es is dateTs endTs "all-categories" sid scid b cats
          gen).totalExpenses) ∧
    (useReportData es is dateTs endTs "all-categories" sid scid b cats
        gen).groupedExpenses.Pairwise (fun a b => b.totalAmount ≤ a.totalAmount) ∧
    (∀ g ∈ (useReportData es is dateTs endTs "all-categories" sid scid b cats
        gen).groupedExpenses, 0 < g.expenses.length) := by
  refine ⟨?_, ?_, ?_⟩
  · rw [useReportData_groupedExpenses, useReportData_totalExpenses,
      ← processedExpensesOf_total_split]
    refine groupedExpensesOf_total cats _ hnd ?_
    intro p hp
    obtain ⟨e, he, rfl, -⟩ := processedExpensesOf_shape _ _ _ _ _ _ p hp
    exact hcov e he
  · rw [useReportData_groupedExpenses]
    exact groupedExpensesOf_sorted _ _ _
  · rw [useReportData_groupedExpenses]
    exact groupedExpensesOf_nonempty _ _ _

/-- C5 witness: the rollup theorem applied at a concrete input. -/
theorem claim_C5_witness :
    (((useReportData [⟨"e1", DateInput.valid 0, 1, "ONCE", "c1"⟩] []
          0 (86400000 * 20) "all-categories" "" "" false [⟨"c1", "Food"⟩]
          (noonTs 0)).groupedExpenses.map (fun g => g.totalAmount)).sum
        = (useReportData [⟨"e1", DateInput.valid 0, 1, "ONCE", "c1"⟩] []
          0 (86400000 * 20) "all-categories" "" "" false [⟨"c1", "Food"⟩]
          (noonTs 0)).totalExpenses) ∧
    (useReportData [⟨"e1", DateInput.valid 0, 1, "ONCE", "c1"⟩] []
        0 (86400000 * 20) "all-categories" "" "" false [⟨"c1", "Food"⟩]
        (noonTs 0)).groupedExpenses.Pairwise
      (fun a b => b.totalAmount ≤ a.totalAmount) ∧
    (∀ g ∈ (useReportData [⟨"e1", DateInput.valid 0, 1, "ONCE", "c1"⟩] []
        0 (86400000 * 20) "all-categories" "" "" false [⟨"c1", "Food"⟩]
        (noonTs 0)).groupedExpenses, 0 < g.expenses.length) :=
  claim_C5_category_rollup [⟨"e1", DateInput.valid 0, 1, "ONCE", "c1"⟩] []
    0 (86400000 * 20) "" "" false [⟨"c1", "Food"⟩] (noonTs 0)
    (by decide) (by decide)

end BudgetBuddy
